import Mathlib

/-!
# UltraPad: controller state, PIO channel operations and the two control loops

A shallow embedding of `src/ultrapad.cpp` and `src/pioprogram.hpp`.

* Machine integers are `Nat` (unsigned) or `Int` (`int8_t`, `int`), with the
  wrap-around written out (`% 256`, `% 65536`, `% 4294967296`).
* `Controller` is a packed 8-byte struct.  Its two `uint32_t&` views are pointer
  casts, so the embedding goes through the little-endian memory image of the
  struct (`Controller.toBytes` / `Controller.ofBytes`, `load32` / `store32`).
* The hardware seen by one core (millisecond clock, FIFO status flags, received
  words) is a script of future observations held in `Hw`; every hardware call
  consumes the next observation of its kind.  A function returns `none` when
  the script it needs has run out, that is, when the call is still spinning
  in its wait loop at the end of the described observations.
-/

namespace UltraPad

/-! ## Enumerations (`ultrapad.cpp`, lines 12-51) -/

/-- Codes of `enum class RequestCommand : uint8_t`. -/
def RequestCommand.Info : Nat := 0x00
def RequestCommand.ControllerState : Nat := 0x01
def RequestCommand.ReadAccessory : Nat := 0x02
def RequestCommand.WriteAccessory : Nat := 0x03
def RequestCommand.ReadEEPROM : Nat := 0x04
def RequestCommand.WriteEEPROM : Nat := 0x05
def RequestCommand.ReadKeypress : Nat := 0x13
def RequestCommand.Reset : Nat := 0xFF

/-- Values of `enum class StatusFlag : uint8_t`. -/
def StatusFlag.None : Nat := 0x00
def StatusFlag.PakInserted : Nat := 0x01
def StatusFlag.PakRemoved : Nat := 0x02
def StatusFlag.AddressCrcError : Nat := 0x04

/-- Values of `enum class ButtonFlag : uint16_t`. -/
def ButtonFlag.None : Nat := 0x00
def ButtonFlag.CRight : Nat := 0x01 <<< 0
def ButtonFlag.CLeft : Nat := 0x01 <<< 1
def ButtonFlag.CDown : Nat := 0x01 <<< 2
def ButtonFlag.CUp : Nat := 0x01 <<< 3
def ButtonFlag.R : Nat := 0x01 <<< 4
def ButtonFlag.L : Nat := 0x01 <<< 5
def ButtonFlag.Reserved : Nat := 0x01 <<< 6
def ButtonFlag.Reset : Nat := 0x01 <<< 7
def ButtonFlag.PadRight : Nat := 0x01 <<< 8
def ButtonFlag.PadLeft : Nat := 0x01 <<< 9
def ButtonFlag.PadDown : Nat := 0x01 <<< 10
def ButtonFlag.PadUp : Nat := 0x01 <<< 11
def ButtonFlag.Start : Nat := 0x01 <<< 12
def ButtonFlag.Z : Nat := 0x01 <<< 13
def ButtonFlag.B : Nat := 0x01 <<< 14
def ButtonFlag.A : Nat := 0x01 <<< 15

/-- The sixteen button enumerators in the order of their declaration
(after `None`), which is ascending bit order. -/
def ButtonFlag.all : List Nat :=
  [ButtonFlag.CRight, ButtonFlag.CLeft, ButtonFlag.CDown, ButtonFlag.CUp,
   ButtonFlag.R, ButtonFlag.L, ButtonFlag.Reserved, ButtonFlag.Reset,
   ButtonFlag.PadRight, ButtonFlag.PadLeft, ButtonFlag.PadDown, ButtonFlag.PadUp,
   ButtonFlag.Start, ButtonFlag.Z, ButtonFlag.B, ButtonFlag.A]

/-- The three single-bit status enumerators. -/
def StatusFlag.all : List Nat :=
  [StatusFlag.PakInserted, StatusFlag.PakRemoved, StatusFlag.AddressCrcError]

/-! ## The packed `Controller` struct (`ultrapad.cpp`, lines 53-119) -/

/-- The fields of `struct __attribute__ ((packed)) Controller`, in declaration
order, with their default member initialisers.  `reserved`, `status`,
`header2`, `header1` are `uint8_t`, the axes are `int8_t`, `buttons` is
`uint16_t`. -/
structure Controller where
  reserved : Nat := 0x00
  status : Nat := StatusFlag.None
  header2 : Nat := 0x00
  header1 : Nat := 0x05
  yAxis : Int := 0
  xAxis : Int := 0
  buttons : Nat := ButtonFlag.None
  deriving DecidableEq, Repr

/-- The values the C++ field types admit. -/
def Controller.WF (c : Controller) : Prop :=
  c.reserved < 256 ∧ c.status < 256 ∧ c.header2 < 256 ∧ c.header1 < 256 ∧
  (-128 ≤ c.yAxis ∧ c.yAxis ≤ 127) ∧ (-128 ≤ c.xAxis ∧ c.xAxis ≤ 127) ∧
  c.buttons < 65536

instance (c : Controller) : Decidable c.WF := by
  unfold Controller.WF; infer_instance

/-- The global `Controller pad1;`, default constructed. -/
def pad1 : Controller := {}

/-- The byte that stores an `int8_t` (two's complement). -/
def byteOfInt8 (x : Int) : Nat := (x % 256).toNat

/-- The `int8_t` stored in a byte (two's complement). -/
def int8OfByte (b : Nat) : Int :=
  if b % 256 < 128 then ((b % 256 : Nat) : Int) else ((b % 256 : Nat) : Int) - 256

/-- The memory image of the struct: packed, fields at offsets 0, 1, 2, 3, 4, 5
and 6-7, the `uint16_t` stored little-endian. -/
def Controller.toBytes (c : Controller) : List Nat :=
  [c.reserved, c.status, c.header2, c.header1,
   byteOfInt8 c.yAxis, byteOfInt8 c.xAxis, c.buttons % 256, c.buttons / 256 % 256]

/-- The struct whose memory image is the given eight bytes. -/
def Controller.ofBytes (m : List Nat) : Controller where
  reserved := m.getD 0 0
  status := m.getD 1 0
  header2 := m.getD 2 0
  header1 := m.getD 3 0
  yAxis := int8OfByte (m.getD 4 0)
  xAxis := int8OfByte (m.getD 5 0)
  buttons := m.getD 6 0 + 256 * m.getD 7 0

/-- Little-endian load of the `uint32_t` at byte offset `off`. -/
def load32 (m : List Nat) (off : Nat) : Nat :=
  m.getD off 0 + 256 * m.getD (off + 1) 0 + 65536 * m.getD (off + 2) 0 +
    16777216 * m.getD (off + 3) 0

/-- Little-endian store of the `uint32_t` `v` at byte offset `off`. -/
def store32 (m : List Nat) (off : Nat) (v : Nat) : List Nat :=
  (((m.set off (v % 256)).set (off + 1) (v / 256 % 256)).set (off + 2)
    (v / 65536 % 256)).set (off + 3) (v / 16777216 % 256)

/-- The value read through `statusMessage()`: `*((uint32_t*)this)`. -/
def Controller.statusMessage (c : Controller) : Nat := load32 c.toBytes 0

/-- The value read through `pollMessage()`: `*(((uint32_t*)this)+1)`. -/
def Controller.pollMessage (c : Controller) : Nat := load32 c.toBytes 4

/-- The assignment `*(((uint32_t*)this)+1) = msg` of `setFromPollValue`. -/
def Controller.setFromPollValue (c : Controller) (msg : Nat) : Controller :=
  Controller.ofBytes (store32 c.toBytes 4 msg)

/-- An assignment `statusMessage() = v` through the returned `uint32_t&`. -/
def Controller.storeStatusMessage (c : Controller) (v : Nat) : Controller :=
  Controller.ofBytes (store32 c.toBytes 0 v)

/-- An assignment `pollMessage() = v` through the returned `uint32_t&`. -/
def Controller.storePollMessage (c : Controller) (v : Nat) : Controller :=
  Controller.ofBytes (store32 c.toBytes 4 v)

/-- The operand `~x` after integral promotion of `x` to a 32-bit `int`, as a
two's complement bit pattern. -/
def complInt (x : Nat) : Nat := 4294967296 - (x + 1)

/-- Member `getStatusFlag`: `(StatusFlag)((uint8_t)status & (uint8_t)flag) != None`. -/
def Controller.getStatusFlag (c : Controller) (flag : Nat) : Bool :=
  decide ((c.status &&& flag) % 256 ≠ StatusFlag.None)

/-- Member `setStatusFlag`: `status | flag` when `value` holds, `status & ~flag`
otherwise, both computed on promoted `int` operands and cast back to the
`uint8_t` enumeration. -/
def Controller.setStatusFlag (c : Controller) (flag : Nat) (value : Bool) : Controller :=
  if value then
    { c with status := (c.status ||| flag) % 256 }
  else
    { c with status := (c.status &&& complInt flag) % 256 }

/-- Member `getButton`: `(ButtonFlag)((uint16_t)button & (uint16_t)buttons) != None`. -/
def Controller.getButton (c : Controller) (button : Nat) : Bool :=
  decide ((button &&& c.buttons) % 65536 ≠ ButtonFlag.None)

/-- Member `setButton`: `buttons | button` when `value` holds, `buttons & ~button`
otherwise, both computed on promoted `int` operands and cast back to the
`uint16_t` enumeration. -/
def Controller.setButton (c : Controller) (button : Nat) (value : Bool) : Controller :=
  if value then
    { c with buttons := (c.buttons ||| button) % 65536 }
  else
    { c with buttons := (c.buttons &&& complInt button) % 65536 }

/-! ## The hardware seen by one core -/

/-- The hardware calls with an effect, as they are recorded in `Hw.log`. -/
inductive Event where
  /-- The call `pio_sm_put(pio_, sm_, w)`. -/
  | put (w : Nat)
  /-- The call `pio_sm_get(pio_, sm_)`, which returned `w`. -/
  | get (w : Nat)
  /-- One call of `PioProgram::reset()` (disable, clear FIFOs, restart, init, enable). -/
  | reset
  /-- The call `sleep_ms(ms)`. -/
  | sleep (ms : Nat)
  deriving DecidableEq, Repr

/-- The state machine of one `PioProgram` together with the clock, as the core
that owns it observes them.  `clock` holds the values the next calls of
`to_ms_since_boot(get_absolute_time())` return (`uint32_t` milliseconds),
`txFull` the results of the next calls of `pio_sm_is_tx_fifo_full`, `rxEmpty`
those of `pio_sm_is_rx_fifo_empty`, `rxWords` the words the next calls of
`pio_sm_get` return, and `log` the effects so far, oldest first. -/
structure Hw where
  clock : List Nat
  txFull : List Bool
  rxEmpty : List Bool
  rxWords : List Nat
  log : List Event
  deriving DecidableEq, Repr

/-- The `uint32_t` difference `now - start`. -/
def sub32 (now start : Nat) : Nat := (now + 4294967296 - start) % 4294967296

/-- The test `timeoutMs > 0 && (now - start) > timeoutMs` of the wait loops.
The left operand of the second comparison is `uint32_t`, so the `int`
`timeoutMs` is converted to `uint32_t` for it. -/
def expired (timeoutMs : Int) (start now : Nat) : Bool :=
  decide (timeoutMs > 0) && decide (sub32 now start > (timeoutMs % 4294967296).toNat)

/-- The wait loop shared by `read`, `write` and both legs of
`writeLengthAndBytes`:
`while (notReady) { now = clock; if (expired) return false; }`.
`flags` are the successive values of the loop condition, `clock` the
successive clock readings.  The result is `(true, _, _)` when the loop is left
through its condition, `(false, _, _)` when it is left through `return false`,
with the observations not yet consumed. -/
def spin (timeoutMs : Int) (start : Nat) :
    List Bool → List Nat → Option (Bool × List Bool × List Nat)
  | [], _ => none
  | false :: flags, clock => some (true, flags, clock)
  | true :: _, [] => none
  | true :: flags, now :: clock =>
    if expired timeoutMs start now then some (false, flags, clock)
    else spin timeoutMs start flags clock

namespace PioProgram

/-- Member `bool write(uint32_t data, int timeoutMs)`. -/
def write (hw : Hw) (data : Nat) (timeoutMs : Int) : Option (Bool × Hw) :=
  match hw.clock with
  | [] => none
  | start :: clock =>
    match spin timeoutMs start hw.txFull clock with
    | none => none
    | some (false, flags, clock1) =>
      some (false, { hw with clock := clock1, txFull := flags })
    | some (true, flags, clock1) =>
      some (true, { hw with clock := clock1, txFull := flags,
                            log := hw.log ++ [Event.put data] })

/-- Overload `bool write(uint8_t data, int timeoutMs)`:
`write((uint32_t)data << 24, timeoutMs)`. -/
def writeByte (hw : Hw) (data : Nat) (timeoutMs : Int) : Option (Bool × Hw) :=
  write hw (((data % 256) <<< 24) % 4294967296) timeoutMs

/-- Member `bool read(uint32_t& data, int timeoutMs)`.  The second component of the
result is the content of `data` after the call. -/
def read (hw : Hw) (data : Nat) (timeoutMs : Int) : Option (Bool × Nat × Hw) :=
  match hw.clock with
  | [] => none
  | start :: clock =>
    match spin timeoutMs start hw.rxEmpty clock with
    | none => none
    | some (false, flags, clock1) =>
      some (false, data, { hw with clock := clock1, rxEmpty := flags })
    | some (true, flags, clock1) =>
      match hw.rxWords with
      | [] => none
      | w :: words =>
        some (true, w, { hw with clock := clock1, rxEmpty := flags, rxWords := words,
                                 log := hw.log ++ [Event.get w] })

/-- Member `bool writeLengthAndBytes(uint32_t data, uint32_t bytesToSend, int timeoutMs)`.
Both wait loops compare against the one `start` taken on entry; the control
word is the `uint32_t` value of `bytesToSend*8-1`. -/
def writeLengthAndBytes (hw : Hw) (data bytesToSend : Nat) (timeoutMs : Int) :
    Option (Bool × Hw) :=
  match hw.clock with
  | [] => none
  | start :: clock =>
    match spin timeoutMs start hw.txFull clock with
    | none => none
    | some (false, flags, clock1) =>
      some (false, { hw with clock := clock1, txFull := flags })
    | some (true, flags, clock1) =>
      let log1 := hw.log ++ [Event.put ((bytesToSend * 8 + 4294967296 - 1) % 4294967296)]
      match spin timeoutMs start flags clock1 with
      | none => none
      | some (false, flags2, clock2) =>
        some (false, { hw with clock := clock2, txFull := flags2, log := log1 })
      | some (true, flags2, clock2) =>
        some (true, { hw with clock := clock2, txFull := flags2,
                              log := log1 ++ [Event.put data] })

/-- Member `void reset()`, recorded as one event. -/
def reset (hw : Hw) : Hw := { hw with log := hw.log ++ [Event.reset] }

end PioProgram

/-- The SDK call `sleep_ms(ms)`. -/
def sleep_ms (hw : Hw) (ms : Nat) : Hw := { hw with log := hw.log ++ [Event.sleep ms] }

/-! ## The two control loops (`ultrapad.cpp`, lines 151-217) -/

/-- The variables of `updatePad`: the host state machine `n64Host`, the shared
`pad1` and the local `pollMsg`.  The diagnostic output to `std::cout` is left
out. -/
structure Poller where
  n64Host : Hw
  pad1 : Controller
  pollMsg : Nat
  deriving DecidableEq, Repr

/-- One pass through the body of the `while (1)` loop of `updatePad`. -/
def updatePadStep (s : Poller) : Option Poller :=
  match PioProgram.writeByte s.n64Host RequestCommand.ControllerState 10 with
  | none => none
  | some (false, hw1) =>
    some { s with n64Host := sleep_ms (PioProgram.reset hw1) 1000 }
  | some (true, hw1) =>
    match PioProgram.read hw1 s.pollMsg 10 with
    | none => none
    | some (false, msg, hw2) =>
      some { n64Host := sleep_ms (PioProgram.reset hw2) 1000, pad1 := s.pad1, pollMsg := msg }
    | some (true, msg, hw2) =>
      some { n64Host := sleep_ms hw2 16, pad1 := s.pad1.setFromPollValue msg, pollMsg := msg }

/-- The first `n` passes of the `while (1)` loop of `updatePad`.  Every branch
of the body ends in the next pass (`continue` or the end of the body). -/
def updatePad : Nat → Poller → Option Poller
  | 0, s => some s
  | n + 1, s =>
    match updatePadStep s with
    | none => none
    | some s1 => updatePad n s1

/-- One pass through the body of the `while (1)` loop of `main`, on the client
state machine `n64Client`.  `value` is the content of the uninitialised local
`RequestCommand value;`.  `read` stores a whole `uint32_t` at its address; the
command compared afterwards is the byte at that address, on this
little-endian target the low byte of the word.  Both calls use the default
`timeoutMs = -1` and their results are discarded. -/
def mainStep (n64Client : Hw) (pad : Controller) (value : Nat) : Option (Hw × Controller) :=
  match PioProgram.read n64Client value (-1) with
  | none => none
  | some (_, word, hw1) =>
    if word % 256 = RequestCommand.Info then
      match PioProgram.writeLengthAndBytes hw1 pad.statusMessage 3 (-1) with
      | none => none
      | some (_, hw2) => some (hw2, pad)
    else if word % 256 = RequestCommand.ControllerState then
      match PioProgram.writeLengthAndBytes hw1 pad.pollMessage 4 (-1) with
      | none => none
      | some (_, hw2) => some (hw2, pad)
    else some (hw1, pad)

/-- Modelled from the spec: the PIO programs that shift a queued word onto the
wire (`n64_client.pio.h`, `n64_host.pio.h`) are not part of the source.  A
reply of `n` bytes is listed from the most significant byte of the data word
down, the order in which `{header byte 1, header byte 2, status-flags byte}`
lie in the status word. -/
def msbBytes (w : Nat) (n : Nat) : List Nat :=
  (List.range n).map (fun i => w / 256 ^ (3 - i) % 256)

/-- No clock reading in `quiet` trips the timeout test of a call started at `start`. -/
def calm (timeoutMs : Int) (start : Nat) (quiet : List Nat) : Prop :=
  ∀ now ∈ quiet, expired timeoutMs start now = false

instance (timeoutMs : Int) (start : Nat) (quiet : List Nat) :
    Decidable (calm timeoutMs start quiet) := by
  unfold calm; infer_instance

/-! ## Lemmas on bytes and bits -/

theorem byteOfInt8_lt (x : Int) : byteOfInt8 x < 256 := by
  unfold byteOfInt8; omega

theorem byteOfInt8_int8OfByte (b : Nat) : byteOfInt8 (int8OfByte b) = b % 256 := by
  unfold byteOfInt8 int8OfByte
  split <;> omega

theorem int8OfByte_range (b : Nat) : -128 ≤ int8OfByte b ∧ int8OfByte b ≤ 127 := by
  unfold int8OfByte
  split <;> omega

theorem int8OfByte_emod (b : Nat) : int8OfByte b % 256 = ((b % 256 : Nat) : Int) := by
  unfold int8OfByte
  split <;> omega

theorem int8OfByte_byteOfInt8 (x : Int) (h1 : -128 ≤ x) (h2 : x ≤ 127) :
    int8OfByte (byteOfInt8 x) = x := by
  unfold byteOfInt8 int8OfByte
  split <;> omega

/-- The views written out in the fields. -/
theorem statusMessage_eq (c : Controller) :
    c.statusMessage = c.reserved + 256 * c.status + 65536 * c.header2 + 16777216 * c.header1 := by
  simp [Controller.statusMessage, load32, Controller.toBytes]

theorem pollMessage_eq (c : Controller) :
    c.pollMessage = byteOfInt8 c.yAxis + 256 * byteOfInt8 c.xAxis + 65536 * (c.buttons % 256)
      + 16777216 * (c.buttons / 256 % 256) := by
  simp [Controller.pollMessage, load32, Controller.toBytes]

theorem setFromPollValue_eq (c : Controller) (msg : Nat) :
    c.setFromPollValue msg =
      { c with yAxis := int8OfByte (msg % 256), xAxis := int8OfByte (msg / 256 % 256),
               buttons := msg / 65536 % 256 + 256 * (msg / 16777216 % 256) } := by
  simp [Controller.setFromPollValue, store32, Controller.ofBytes, Controller.toBytes]

theorem storeStatusMessage_eq (c : Controller) (v : Nat) :
    c.storeStatusMessage v =
      { c with reserved := v % 256, status := v / 256 % 256, header2 := v / 65536 % 256,
               header1 := v / 16777216 % 256,
               yAxis := int8OfByte (byteOfInt8 c.yAxis),
               xAxis := int8OfByte (byteOfInt8 c.xAxis),
               buttons := c.buttons % 256 + 256 * (c.buttons / 256 % 256) } := by
  simp [Controller.storeStatusMessage, store32, Controller.ofBytes, Controller.toBytes]

theorem msbBytes_three (w : Nat) :
    msbBytes w 3 = [w / 16777216 % 256, w / 65536 % 256, w / 256 % 256] := by
  simp [msbBytes, List.range, List.range.loop]

theorem msbBytes_four (w : Nat) :
    msbBytes w 4 = [w / 16777216 % 256, w / 65536 % 256, w / 256 % 256, w % 256] := by
  simp [msbBytes, List.range, List.range.loop]

theorem testBit_false_of_lt {x n i : Nat} (hx : x < 2 ^ n) (hi : n ≤ i) :
    x.testBit i = false :=
  Nat.testBit_lt_two_pow (Nat.lt_of_lt_of_le hx (Nat.pow_le_pow_right (by decide) hi))

/-- Anding with the promoted complement and casting back to `n` bits is anding
with the `n`-bit complement. -/
theorem land_complInt_mod (n s f : Nat) (hn : n ≤ 32) (hs : s < 2 ^ n) (hf : f < 2 ^ n) :
    (s &&& complInt f) % 2 ^ n = s &&& (2 ^ n - 1 - f) := by
  have hf32 : f < 2 ^ 32 := Nat.lt_of_lt_of_le hf (Nat.pow_le_pow_right (by decide) hn)
  have e1 : complInt f = 2 ^ 32 - (f + 1) := by simp [complInt]
  have e2 : 2 ^ n - 1 - f = 2 ^ n - (f + 1) := by omega
  apply Nat.eq_of_testBit_eq
  intro i
  rw [e1, e2, Nat.testBit_mod_two_pow, Nat.testBit_and, Nat.testBit_and,
    Nat.testBit_two_pow_sub_succ hf32, Nat.testBit_two_pow_sub_succ hf]
  by_cases hi : i < n
  · have hi32 : i < 32 := by omega
    simp [hi, hi32]
  · have : s.testBit i = false := testBit_false_of_lt hs (by omega)
    simp [hi, this]

theorem lor_land_self (s f : Nat) : (s ||| f) &&& f = f := by
  apply Nat.eq_of_testBit_eq
  intro i
  simp only [Nat.testBit_and, Nat.testBit_or]
  cases s.testBit i <;> cases f.testBit i <;> rfl

theorem land_compl_land_self (n s f : Nat) (hf : f < 2 ^ n) :
    (s &&& (2 ^ n - 1 - f)) &&& f = 0 := by
  have e2 : 2 ^ n - 1 - f = 2 ^ n - (f + 1) := by omega
  apply Nat.eq_of_testBit_eq
  intro i
  rw [e2, Nat.testBit_and, Nat.testBit_and, Nat.testBit_two_pow_sub_succ hf]
  cases s.testBit i <;> cases f.testBit i <;> simp

theorem testBit_disjoint {g f : Nat} (h : g &&& f = 0) (i : Nat) :
    (g.testBit i && f.testBit i) = false := by
  rw [← Nat.testBit_and, h, Nat.zero_testBit]

theorem lor_land_disjoint (s f g : Nat) (h : g &&& f = 0) : (s ||| f) &&& g = s &&& g := by
  apply Nat.eq_of_testBit_eq
  intro i
  have := testBit_disjoint h i
  simp only [Nat.testBit_and, Nat.testBit_or]
  revert this
  cases s.testBit i <;> cases f.testBit i <;> cases g.testBit i <;> simp

theorem land_compl_land_disjoint (n s f g : Nat) (hf : f < 2 ^ n) (hg : g < 2 ^ n)
    (h : g &&& f = 0) : (s &&& (2 ^ n - 1 - f)) &&& g = s &&& g := by
  have e2 : 2 ^ n - 1 - f = 2 ^ n - (f + 1) := by omega
  apply Nat.eq_of_testBit_eq
  intro i
  have hd := testBit_disjoint h i
  rw [e2, Nat.testBit_and, Nat.testBit_and, Nat.testBit_and, Nat.testBit_two_pow_sub_succ hf]
  by_cases hi : i < n
  · revert hd
    cases s.testBit i <;> cases f.testBit i <;> cases g.testBit i <;> simp [hi]
  · have : g.testBit i = false := testBit_false_of_lt hg (by omega)
    simp [this]

/-- A single-bit mask selects exactly that bit. -/
theorem two_pow_land_ne_zero (k n : Nat) : (2 ^ k &&& n ≠ 0) ↔ n.testBit k = true := by
  constructor
  · intro h
    by_contra hk
    apply h
    apply Nat.eq_of_testBit_eq
    intro i
    rw [Nat.testBit_and, Nat.testBit_two_pow, Nat.zero_testBit]
    by_cases hik : k = i
    · subst hik; simp [hk]
    · simp [hik]
  · intro hk h
    have := congrArg (fun x => x.testBit k) h
    simp [Nat.testBit_and, Nat.testBit_two_pow, hk] at this

theorem two_pow_land_lt (k n m : Nat) (hk : k < m) : 2 ^ k &&& n < 2 ^ m := by
  rw [Nat.and_comm]
  exact Nat.and_lt_two_pow n (Nat.pow_lt_pow_right (by decide) hk)

/-! ## Flag-level accessors and mutators -/

theorem land_complInt_u8 (s f : Nat) (hs : s < 256) (hf : f < 256) :
    (s &&& complInt f) % 256 = s &&& (255 - f) :=
  land_complInt_mod 8 s f (by decide) hs hf

theorem land_complInt_u16 (s f : Nat) (hs : s < 65536) (hf : f < 65536) :
    (s &&& complInt f) % 65536 = s &&& (65535 - f) :=
  land_complInt_mod 16 s f (by decide) hs hf

theorem lor_lt_u8 (s f : Nat) (hs : s < 256) (hf : f < 256) : s ||| f < 256 :=
  @Nat.or_lt_two_pow s f 8 hs hf

theorem lor_lt_u16 (s f : Nat) (hs : s < 65536) (hf : f < 65536) : s ||| f < 65536 :=
  @Nat.or_lt_two_pow s f 16 hs hf

theorem land_compl_self_u8 (s f : Nat) (hf : f < 256) : (s &&& (255 - f)) &&& f = 0 :=
  land_compl_land_self 8 s f hf

theorem land_compl_self_u16 (s f : Nat) (hf : f < 65536) : (s &&& (65535 - f)) &&& f = 0 :=
  land_compl_land_self 16 s f hf

theorem land_compl_disjoint_u8 (s f g : Nat) (hf : f < 256) (hg : g < 256)
    (h : g &&& f = 0) : (s &&& (255 - f)) &&& g = s &&& g :=
  land_compl_land_disjoint 8 s f g hf hg h

theorem land_compl_disjoint_u16 (s f g : Nat) (hf : f < 65536) (hg : g < 65536)
    (h : g &&& f = 0) : (s &&& (65535 - f)) &&& g = s &&& g :=
  land_compl_land_disjoint 16 s f g hf hg h

theorem setStatusFlag_eq (s : Controller) (f : Nat) (v : Bool) (hs : s.status < 256)
    (hf : f < 256) :
    s.setStatusFlag f v =
      { s with status := if v then s.status ||| f else s.status &&& (255 - f) } := by
  cases v
  · simp [Controller.setStatusFlag, land_complInt_u8 s.status f hs hf]
  · simp [Controller.setStatusFlag, Nat.mod_eq_of_lt (lor_lt_u8 s.status f hs hf)]

theorem setButton_eq (s : Controller) (b : Nat) (v : Bool) (hs : s.buttons < 65536)
    (hb : b < 65536) :
    s.setButton b v =
      { s with buttons := if v then s.buttons ||| b else s.buttons &&& (65535 - b) } := by
  cases v
  · simp [Controller.setButton, land_complInt_u16 s.buttons b hs hb]
  · simp [Controller.setButton, Nat.mod_eq_of_lt (lor_lt_u16 s.buttons b hs hb)]

theorem getStatusFlag_set_same (s : Controller) (f : Nat) (v : Bool) (hs : s.status < 256)
    (hf : f < 256) (h0 : f ≠ 0) : (s.setStatusFlag f v).getStatusFlag f = v := by
  rw [setStatusFlag_eq s f v hs hf]
  cases v
  · simp [Controller.getStatusFlag, land_compl_self_u8 s.status f hf, StatusFlag.None]
  · simp [Controller.getStatusFlag, lor_land_self, StatusFlag.None, Nat.mod_eq_of_lt hf, h0]

theorem getStatusFlag_set_other (s : Controller) (f g : Nat) (v : Bool)
    (hs : s.status < 256) (hf : f < 256) (hg : g < 256) (h : g &&& f = 0) :
    (s.setStatusFlag f v).getStatusFlag g = s.getStatusFlag g := by
  rw [setStatusFlag_eq s f v hs hf]
  cases v
  · simp [Controller.getStatusFlag, land_compl_disjoint_u8 s.status f g hf hg h]
  · simp [Controller.getStatusFlag, lor_land_disjoint s.status f g h]

theorem getButton_set_same (s : Controller) (b : Nat) (v : Bool) (hs : s.buttons < 65536)
    (hb : b < 65536) (h0 : b ≠ 0) : (s.setButton b v).getButton b = v := by
  rw [setButton_eq s b v hs hb]
  cases v
  · simp [Controller.getButton, Nat.and_comm b, land_compl_self_u16 s.buttons b hb,
      ButtonFlag.None]
  · simp [Controller.getButton, Nat.and_comm b, lor_land_self, ButtonFlag.None,
      Nat.mod_eq_of_lt hb, h0]

theorem getButton_set_other (s : Controller) (b g : Nat) (v : Bool)
    (hs : s.buttons < 65536) (hb : b < 65536) (hg : g < 65536) (h : g &&& b = 0) :
    (s.setButton b v).getButton g = s.getButton g := by
  rw [setButton_eq s b v hs hb]
  cases v
  · simp [Controller.getButton, Nat.and_comm g,
      land_compl_disjoint_u16 s.buttons b g hb hg h]
  · simp [Controller.getButton, Nat.and_comm g, lor_land_disjoint s.buttons b g h]

theorem buttonFlag_all_getD (k : Nat) (hk : k < 16) : ButtonFlag.all.getD k 0 = 2 ^ k := by
  interval_cases k <;> rfl

theorem two_pow_land_two_pow (j k : Nat) (h : j ≠ k) : 2 ^ j &&& 2 ^ k = 0 := by
  apply Nat.eq_of_testBit_eq
  intro i
  rw [Nat.testBit_and, Nat.testBit_two_pow, Nat.testBit_two_pow, Nat.zero_testBit]
  by_cases h1 : j = i
  · have : ¬ k = i := fun h2 => h (h1.trans h2.symm)
    simp [this]
  · simp [h1]

theorem getButton_two_pow (c : Controller) (k : Nat) (hk : k < 16) :
    c.getButton (2 ^ k) = c.buttons.testBit k := by
  have hlt : 2 ^ k &&& c.buttons < 65536 := two_pow_land_lt k c.buttons 16 hk
  unfold Controller.getButton
  rw [Nat.mod_eq_of_lt hlt]
  by_cases hb : c.buttons.testBit k = true
  · rw [hb]; exact decide_eq_true ((two_pow_land_ne_zero k c.buttons).2 hb)
  · have hne : ¬ (2 ^ k &&& c.buttons ≠ 0) := fun h => hb ((two_pow_land_ne_zero k c.buttons).1 h)
    rw [Bool.not_eq_true] at hb
    rw [hb]; exact decide_eq_false hne

/-! ## The wait loop -/

theorem expired_nonpos (t : Int) (ht : t ≤ 0) (start now : Nat) :
    expired t start now = false := by
  have : ¬ t > 0 := by omega
  simp [expired, this]

theorem expired_pos (T : Nat) (h0 : 0 < T) (h31 : T < 2147483648) (start now : Nat) :
    expired (T : Int) start now = decide (T < sub32 now start) := by
  have e : ((T : Int) % 4294967296).toNat = T := by omega
  have p : (T : Int) > 0 := by omega
  simp [expired, e, p]

theorem calm_nonpos (t : Int) (ht : t ≤ 0) (start : Nat) (quiet : List Nat) :
    calm t start quiet := fun now _ => expired_nonpos t ht start now

theorem calm_nil (t : Int) (start : Nat) : calm t start [] := by
  intro now h; cases h

theorem calm_cons (t : Int) (start now : Nat) (quiet : List Nat) :
    calm t start (now :: quiet) ↔ expired t start now = false ∧ calm t start quiet := by
  simp [calm]

theorem calm_pos (T : Nat) (h0 : 0 < T) (h31 : T < 2147483648) (start : Nat)
    (quiet : List Nat) :
    calm (T : Int) start quiet ↔ ∀ now ∈ quiet, sub32 now start ≤ T := by
  unfold calm
  constructor
  · intro h now hn
    have := h now hn
    rw [expired_pos T h0 h31] at this
    simpa using this
  · intro h now hn
    rw [expired_pos T h0 h31]
    simpa using h now hn

/-- The loop is left through its condition at the first `false` flag when no
earlier reading trips the timeout test. -/
theorem spin_ready (t : Int) (start : Nat) (quiet : List Nat) (flags : List Bool)
    (clock : List Nat) (hq : calm t start quiet) :
    spin t start (List.replicate quiet.length true ++ false :: flags) (quiet ++ clock)
      = some (true, flags, clock) := by
  induction quiet with
  | nil => simp [spin]
  | cons now quiet ih =>
    rw [calm_cons] at hq
    simp [List.replicate_succ, spin, hq.1, ih hq.2]

/-- The loop is left through `return false` at the first reading that trips the
timeout test, taken while the flag is still set. -/
theorem spin_expire (t : Int) (start : Nat) (quiet : List Nat) (late : Nat)
    (flags : List Bool) (clock : List Nat) (hq : calm t start quiet)
    (hl : expired t start late = true) :
    spin t start (List.replicate (quiet.length + 1) true ++ flags) (quiet ++ late :: clock)
      = some (false, flags, clock) := by
  induction quiet with
  | nil => simp [List.replicate_succ, spin, hl]
  | cons now quiet ih =>
    rw [calm_cons] at hq
    have := ih hq.2
    simp only [List.replicate_succ, List.cons_append, List.length_cons] at this ⊢
    simp [spin, hq.1, this]

/-- The loop does not end while every flag is set and no reading trips the test. -/
theorem spin_pending (t : Int) (start : Nat) (n : Nat) (clock : List Nat)
    (hq : calm t start clock) : spin t start (List.replicate n true) clock = none := by
  induction n generalizing clock with
  | zero => simp [spin]
  | succ n ih =>
    cases clock with
    | nil => simp [List.replicate_succ, spin]
    | cons now clock =>
      rw [calm_cons] at hq
      simp [List.replicate_succ, spin, hq.1, ih clock hq.2]

theorem spin_true_inv (t : Int) (start : Nat) (flags : List Bool) (clock : List Nat)
    (flags1 : List Bool) (clock1 : List Nat)
    (h : spin t start flags clock = some (true, flags1, clock1)) :
    ∃ quiet, flags = List.replicate quiet.length true ++ false :: flags1 ∧
      clock = quiet ++ clock1 ∧ calm t start quiet := by
  induction flags generalizing clock with
  | nil => simp [spin] at h
  | cons b flags ih =>
    cases b with
    | false =>
      simp only [spin, Option.some.injEq, Prod.mk.injEq, true_and] at h
      exact ⟨[], by simp [h.1], by simp [h.2], calm_nil t start⟩
    | true =>
      cases clock with
      | nil => simp [spin] at h
      | cons now clock =>
        by_cases he : expired t start now = true
        · simp [spin, he] at h
        · rw [Bool.not_eq_true] at he
          simp only [spin, he, Bool.false_eq_true, if_false] at h
          obtain ⟨quiet, h1, h2, h3⟩ := ih clock h
          refine ⟨now :: quiet, ?_, ?_, ?_⟩
          · simp [List.replicate_succ, h1]
          · simp [h2]
          · exact (calm_cons t start now quiet).2 ⟨he, h3⟩

theorem spin_false_inv (t : Int) (start : Nat) (flags : List Bool) (clock : List Nat)
    (flags1 : List Bool) (clock1 : List Nat)
    (h : spin t start flags clock = some (false, flags1, clock1)) :
    ∃ quiet late, flags = List.replicate (quiet.length + 1) true ++ flags1 ∧
      clock = quiet ++ late :: clock1 ∧ calm t start quiet ∧ expired t start late = true := by
  induction flags generalizing clock with
  | nil => simp [spin] at h
  | cons b flags ih =>
    cases b with
    | false => simp [spin] at h
    | true =>
      cases clock with
      | nil => simp [spin] at h
      | cons now clock =>
        by_cases he : expired t start now = true
        · simp only [spin, he, if_true, Option.some.injEq, Prod.mk.injEq, true_and] at h
          exact ⟨[], now, by simp [h.1], by simp [h.2], calm_nil t start, he⟩
        · rw [Bool.not_eq_true] at he
          simp only [spin, he, Bool.false_eq_true, if_false] at h
          obtain ⟨quiet, late, h1, h2, h3, h4⟩ := ih clock h
          refine ⟨now :: quiet, late, ?_, ?_, ?_, h4⟩
          · simp [List.replicate_succ, h1]
          · simp [h2]
          · exact (calm_cons t start now quiet).2 ⟨he, h3⟩

/-- With `timeoutMs <= 0` the loop is never left through `return false`. -/
theorem spin_nonpos (t : Int) (ht : t ≤ 0) (start : Nat) (flags : List Bool)
    (clock : List Nat) (flags1 : List Bool) (clock1 : List Nat) :
    spin t start flags clock ≠ some (false, flags1, clock1) := by
  intro h
  obtain ⟨quiet, late, _, _, _, h4⟩ := spin_false_inv t start flags clock flags1 clock1 h
  rw [expired_nonpos t ht] at h4
  cases h4

/-! ## `write` and `read` -/

namespace PioProgram

theorem write_false_iff (hw : Hw) (data : Nat) (t : Int) (hw1 : Hw) :
    write hw data t = some (false, hw1) ↔
      ∃ start quiet late rest flags,
        hw.clock = start :: (quiet ++ late :: rest) ∧
        hw.txFull = List.replicate (quiet.length + 1) true ++ flags ∧
        calm t start quiet ∧ expired t start late = true ∧
        hw1 = { hw with clock := rest, txFull := flags } := by
  constructor
  · intro h
    unfold write at h
    cases hc : hw.clock with
    | nil => simp [hc] at h
    | cons start clock =>
      simp only [hc] at h
      cases hs : spin t start hw.txFull clock with
      | none => simp [hs] at h
      | some r =>
        obtain ⟨b, fs, cs⟩ := r
        cases b
        · simp only [hs, Option.some.injEq, Prod.mk.injEq, true_and] at h
          obtain ⟨quiet, late, h1, h2, h3, h4⟩ := spin_false_inv t start _ _ _ _ hs
          exact ⟨start, quiet, late, cs, fs, by rw [h2], h1, h3, h4, h.symm⟩
        · simp [hs] at h
  · rintro ⟨start, quiet, late, rest, flags, hc, hf, hq, hl, rfl⟩
    unfold write
    simp only [hc, hf, spin_expire t start quiet late flags rest hq hl]

theorem write_true_iff (hw : Hw) (data : Nat) (t : Int) (hw1 : Hw) :
    write hw data t = some (true, hw1) ↔
      ∃ start quiet rest flags,
        hw.clock = start :: (quiet ++ rest) ∧
        hw.txFull = List.replicate quiet.length true ++ false :: flags ∧
        calm t start quiet ∧
        hw1 = { hw with clock := rest, txFull := flags, log := hw.log ++ [Event.put data] } := by
  constructor
  · intro h
    unfold write at h
    cases hc : hw.clock with
    | nil => simp [hc] at h
    | cons start clock =>
      simp only [hc] at h
      cases hs : spin t start hw.txFull clock with
      | none => simp [hs] at h
      | some r =>
        obtain ⟨b, fs, cs⟩ := r
        cases b
        · simp [hs] at h
        · simp only [hs, Option.some.injEq, Prod.mk.injEq, true_and] at h
          obtain ⟨quiet, h1, h2, h3⟩ := spin_true_inv t start _ _ _ _ hs
          exact ⟨start, quiet, cs, fs, by rw [h2], h1, h3, h.symm⟩
  · rintro ⟨start, quiet, rest, flags, hc, hf, hq, rfl⟩
    unfold write
    simp only [hc, hf, spin_ready t start quiet flags rest hq]

theorem read_false_iff (hw : Hw) (data : Nat) (t : Int) (data1 : Nat) (hw1 : Hw) :
    read hw data t = some (false, data1, hw1) ↔
      ∃ start quiet late rest flags,
        hw.clock = start :: (quiet ++ late :: rest) ∧
        hw.rxEmpty = List.replicate (quiet.length + 1) true ++ flags ∧
        calm t start quiet ∧ expired t start late = true ∧
        data1 = data ∧ hw1 = { hw with clock := rest, rxEmpty := flags } := by
  constructor
  · intro h
    unfold read at h
    cases hc : hw.clock with
    | nil => simp [hc] at h
    | cons start clock =>
      simp only [hc] at h
      cases hs : spin t start hw.rxEmpty clock with
      | none => simp [hs] at h
      | some r =>
        obtain ⟨b, fs, cs⟩ := r
        cases b
        · simp only [hs, Option.some.injEq, Prod.mk.injEq, true_and] at h
          obtain ⟨quiet, late, h1, h2, h3, h4⟩ := spin_false_inv t start _ _ _ _ hs
          exact ⟨start, quiet, late, cs, fs, by rw [h2], h1, h3, h4, h.1.symm, h.2.symm⟩
        · cases hw_words : hw.rxWords <;> simp [hs, hw_words] at h
  · rintro ⟨start, quiet, late, rest, flags, hc, hf, hq, hl, rfl, rfl⟩
    unfold read
    simp only [hc, hf, spin_expire t start quiet late flags rest hq hl]

theorem read_true_iff (hw : Hw) (data : Nat) (t : Int) (data1 : Nat) (hw1 : Hw) :
    read hw data t = some (true, data1, hw1) ↔
      ∃ start quiet rest flags words,
        hw.clock = start :: (quiet ++ rest) ∧
        hw.rxEmpty = List.replicate quiet.length true ++ false :: flags ∧
        hw.rxWords = data1 :: words ∧
        calm t start quiet ∧
        hw1 = { hw with clock := rest, rxEmpty := flags, rxWords := words,
                        log := hw.log ++ [Event.get data1] } := by
  constructor
  · intro h
    unfold read at h
    cases hc : hw.clock with
    | nil => simp [hc] at h
    | cons start clock =>
      simp only [hc] at h
      cases hs : spin t start hw.rxEmpty clock with
      | none => simp [hs] at h
      | some r =>
        obtain ⟨b, fs, cs⟩ := r
        cases b
        · simp [hs] at h
        · cases hwords : hw.rxWords with
          | nil => simp [hs, hwords] at h
          | cons w words =>
            simp only [hs, hwords, Option.some.injEq, Prod.mk.injEq, true_and] at h
            obtain ⟨quiet, h1, h2, h3⟩ := spin_true_inv t start _ _ _ _ hs
            obtain ⟨hw_eq, hrest⟩ := h
            subst hw_eq
            exact ⟨start, quiet, cs, fs, words, by rw [h2], h1, rfl, h3, hrest.symm⟩
  · rintro ⟨start, quiet, rest, flags, words, hc, hf, hwords, hq, rfl⟩
    unfold read
    simp only [hc, hf, hwords, spin_ready t start quiet flags rest hq]

theorem write_nonpos (hw : Hw) (data : Nat) (t : Int) (ht : t ≤ 0) (hw1 : Hw) :
    write hw data t ≠ some (false, hw1) := by
  intro h
  obtain ⟨start, quiet, late, rest, flags, _, _, _, hl, _⟩ := (write_false_iff hw data t hw1).1 h
  rw [expired_nonpos t ht] at hl
  cases hl

theorem read_nonpos (hw : Hw) (data : Nat) (t : Int) (ht : t ≤ 0) (data1 : Nat) (hw1 : Hw) :
    read hw data t ≠ some (false, data1, hw1) := by
  intro h
  obtain ⟨start, quiet, late, rest, flags, _, _, _, hl, _⟩ :=
    (read_false_iff hw data t data1 hw1).1 h
  rw [expired_nonpos t ht] at hl
  cases hl

theorem write_pending (hw : Hw) (data : Nat) (t : Int) (ht : t ≤ 0) (n : Nat)
    (hf : hw.txFull = List.replicate n true) : write hw data t = none := by
  unfold write
  cases hc : hw.clock with
  | nil => rfl
  | cons start clock =>
    simp only [hf, spin_pending t start n clock (calm_nonpos t ht start clock)]

theorem read_pending (hw : Hw) (data : Nat) (t : Int) (ht : t ≤ 0) (n : Nat)
    (hf : hw.rxEmpty = List.replicate n true) : read hw data t = none := by
  unfold read
  cases hc : hw.clock with
  | nil => rfl
  | cons start clock =>
    simp only [hf, spin_pending t start n clock (calm_nonpos t ht start clock)]

end PioProgram

/-! ## `writeLengthAndBytes` -/

namespace PioProgram

theorem writeLengthAndBytes_true_iff (hw : Hw) (data n : Nat) (t : Int) (hw1 : Hw) :
    writeLengthAndBytes hw data n t = some (true, hw1) ↔
      ∃ start q1 q2 rest flags,
        hw.clock = start :: (q1 ++ (q2 ++ rest)) ∧
        hw.txFull = List.replicate q1.length true ++
          false :: (List.replicate q2.length true ++ false :: flags) ∧
        calm t start q1 ∧ calm t start q2 ∧
        hw1 = { hw with clock := rest, txFull := flags,
                        log := hw.log ++ [Event.put ((n * 8 + 4294967296 - 1) % 4294967296)]
                                 ++ [Event.put data] } := by
  constructor
  · intro h
    unfold writeLengthAndBytes at h
    cases hc : hw.clock with
    | nil => simp [hc] at h
    | cons start clock =>
      simp only [hc] at h
      cases hs : spin t start hw.txFull clock with
      | none => simp [hs] at h
      | some r =>
        obtain ⟨b, fs, cs⟩ := r
        cases b
        · simp [hs] at h
        · simp only [hs] at h
          cases hs2 : spin t start fs cs with
          | none => simp [hs2] at h
          | some r2 =>
            obtain ⟨b2, fs2, cs2⟩ := r2
            cases b2
            · simp [hs2] at h
            · simp only [hs2, Option.some.injEq, Prod.mk.injEq, true_and] at h
              obtain ⟨q1, h1, h2, h3⟩ := spin_true_inv t start _ _ _ _ hs
              obtain ⟨q2, k1, k2, k3⟩ := spin_true_inv t start _ _ _ _ hs2
              exact ⟨start, q1, q2, cs2, fs2, by rw [h2, k2], by rw [h1, k1], h3, k3, h.symm⟩
  · rintro ⟨start, q1, q2, rest, flags, hc, hf, hq1, hq2, rfl⟩
    unfold writeLengthAndBytes
    simp only [hc, hf, spin_ready t start q1 _ _ hq1, spin_ready t start q2 _ _ hq2]

theorem writeLengthAndBytes_false_iff (hw : Hw) (data n : Nat) (t : Int) (hw1 : Hw) :
    writeLengthAndBytes hw data n t = some (false, hw1) ↔
      (∃ start quiet late rest flags,
        hw.clock = start :: (quiet ++ late :: rest) ∧
        hw.txFull = List.replicate (quiet.length + 1) true ++ flags ∧
        calm t start quiet ∧ expired t start late = true ∧
        hw1 = { hw with clock := rest, txFull := flags }) ∨
      (∃ start q1 q2 late rest flags,
        hw.clock = start :: (q1 ++ (q2 ++ late :: rest)) ∧
        hw.txFull = List.replicate q1.length true ++
          false :: (List.replicate (q2.length + 1) true ++ flags) ∧
        calm t start q1 ∧ calm t start q2 ∧ expired t start late = true ∧
        hw1 = { hw with clock := rest, txFull := flags,
                        log := hw.log ++
                          [Event.put ((n * 8 + 4294967296 - 1) % 4294967296)] }) := by
  constructor
  · intro h
    unfold writeLengthAndBytes at h
    cases hc : hw.clock with
    | nil => simp [hc] at h
    | cons start clock =>
      simp only [hc] at h
      cases hs : spin t start hw.txFull clock with
      | none => simp [hs] at h
      | some r =>
        obtain ⟨b, fs, cs⟩ := r
        cases b
        · simp only [hs, Option.some.injEq, Prod.mk.injEq, true_and] at h
          obtain ⟨quiet, late, h1, h2, h3, h4⟩ := spin_false_inv t start _ _ _ _ hs
          exact Or.inl ⟨start, quiet, late, cs, fs, by rw [h2], h1, h3, h4, h.symm⟩
        · simp only [hs] at h
          cases hs2 : spin t start fs cs with
          | none => simp [hs2] at h
          | some r2 =>
            obtain ⟨b2, fs2, cs2⟩ := r2
            cases b2
            · simp only [hs2, Option.some.injEq, Prod.mk.injEq, true_and] at h
              obtain ⟨q1, h1, h2, h3⟩ := spin_true_inv t start _ _ _ _ hs
              obtain ⟨q2, late, k1, k2, k3, k4⟩ := spin_false_inv t start _ _ _ _ hs2
              exact Or.inr ⟨start, q1, q2, late, cs2, fs2, by rw [h2, k2], by rw [h1, k1],
                h3, k3, k4, h.symm⟩
            · simp [hs2] at h
  · rintro (⟨start, quiet, late, rest, flags, hc, hf, hq, hl, rfl⟩ |
      ⟨start, q1, q2, late, rest, flags, hc, hf, hq1, hq2, hl, rfl⟩)
    · unfold writeLengthAndBytes
      simp only [hc, hf, spin_expire t start quiet late flags rest hq hl]
    · unfold writeLengthAndBytes
      simp only [hc, hf, spin_ready t start q1 _ _ hq1, spin_expire t start q2 late _ _ hq2 hl]

theorem writeLengthAndBytes_nonpos (hw : Hw) (data n : Nat) (t : Int) (ht : t ≤ 0) (hw1 : Hw) :
    writeLengthAndBytes hw data n t ≠ some (false, hw1) := by
  intro h
  rcases (writeLengthAndBytes_false_iff hw data n t hw1).1 h with
    ⟨_, _, late, _, _, _, _, _, hl, _⟩ | ⟨_, _, _, late, _, _, _, _, _, _, hl, _⟩ <;>
  · rw [expired_nonpos t ht] at hl
    cases hl

end PioProgram

/-! ## The responder pass -/

theorem mainStep_inv (hw : Hw) (pad : Controller) (value : Nat) (hw1 : Hw)
    (padOut : Controller) (h : mainStep hw pad value = some (hw1, padOut)) :
    padOut = pad ∧ ∃ word words, hw.rxWords = word :: words ∧ hw1.rxWords = words ∧
      (word % 256 = 0x00 →
        hw1.log = hw.log ++ [Event.get word, Event.put 23, Event.put pad.statusMessage]) ∧
      (word % 256 = 0x01 →
        hw1.log = hw.log ++ [Event.get word, Event.put 31, Event.put pad.pollMessage]) ∧
      (word % 256 ≠ 0x00 → word % 256 ≠ 0x01 → hw1.log = hw.log ++ [Event.get word]) := by
  unfold mainStep at h
  cases hr : PioProgram.read hw value (-1) with
  | none => simp [hr] at h
  | some r =>
    obtain ⟨b, word, hwa⟩ := r
    cases b
    · exact absurd hr (PioProgram.read_nonpos hw value (-1) (by decide) word hwa)
    · obtain ⟨s0, q0, rest0, fl, words, hc, he, hwd, _, rfl⟩ :=
        (PioProgram.read_true_iff hw value (-1) word hwa).1 hr
      simp only [hr] at h
      by_cases h0 : word % 256 = RequestCommand.Info
      · simp only [h0, if_true] at h
        cases hl : PioProgram.writeLengthAndBytes
            { hw with clock := rest0, rxEmpty := fl, rxWords := words,
                      log := hw.log ++ [Event.get word] } pad.statusMessage 3 (-1) with
        | none => simp [hl] at h
        | some r2 =>
          obtain ⟨b2, hw2⟩ := r2
          cases b2
          · exact absurd hl (PioProgram.writeLengthAndBytes_nonpos _ _ _ (-1) (by decide) hw2)
          · obtain ⟨_, _, _, _, _, _, _, _, _, rfl⟩ :=
              (PioProgram.writeLengthAndBytes_true_iff _ _ _ _ hw2).1 hl
            simp only [hl, Option.some.injEq, Prod.mk.injEq] at h
            obtain ⟨rfl, rfl⟩ := h
            have e0 : word % 256 = 0 := h0
            refine ⟨rfl, word, words, hwd, rfl, fun _ => ?_, fun e1 => ?_, fun n0 _ => ?_⟩
            · simp
            · omega
            · exact absurd e0 n0
      · simp only [h0, if_false] at h
        by_cases h1 : word % 256 = RequestCommand.ControllerState
        · simp only [h1, if_true] at h
          cases hl : PioProgram.writeLengthAndBytes
              { hw with clock := rest0, rxEmpty := fl, rxWords := words,
                        log := hw.log ++ [Event.get word] } pad.pollMessage 4 (-1) with
          | none => simp [hl] at h
          | some r2 =>
            obtain ⟨b2, hw2⟩ := r2
            cases b2
            · exact absurd hl (PioProgram.writeLengthAndBytes_nonpos _ _ _ (-1) (by decide) hw2)
            · obtain ⟨_, _, _, _, _, _, _, _, _, rfl⟩ :=
                (PioProgram.writeLengthAndBytes_true_iff _ _ _ _ hw2).1 hl
              simp only [hl, Option.some.injEq, Prod.mk.injEq] at h
              obtain ⟨rfl, rfl⟩ := h
              have e1 : word % 256 = 1 := h1
              refine ⟨rfl, word, words, hwd, rfl, fun e0 => ?_, fun _ => ?_, fun _ n1 => ?_⟩
              · omega
              · simp
              · exact absurd e1 n1
        · simp only [h1, if_false, Option.some.injEq, Prod.mk.injEq] at h
          obtain ⟨rfl, rfl⟩ := h
          refine ⟨rfl, word, words, hwd, rfl, fun e0 => ?_, fun e1 => ?_, fun _ _ => rfl⟩
          · exact absurd e0 h0
          · exact absurd e1 h1

theorem mainStep_info (hw : Hw) (pad : Controller) (value : Nat)
    (s0 : Nat) (q0 : List Nat) (s1 : Nat) (q1 q2 rest : List Nat) (fl tf : List Bool)
    (word : Nat) (words : List Nat)
    (hc : hw.clock = s0 :: (q0 ++ s1 :: (q1 ++ (q2 ++ rest))))
    (he : hw.rxEmpty = List.replicate q0.length true ++ false :: fl)
    (hwd : hw.rxWords = word :: words)
    (ht : hw.txFull = List.replicate q1.length true ++
      false :: (List.replicate q2.length true ++ false :: tf))
    (hcmd : word % 256 = 0x00) :
    mainStep hw pad value =
      some ({ clock := rest, txFull := tf, rxEmpty := fl, rxWords := words,
              log := hw.log ++ [Event.get word, Event.put 23, Event.put pad.statusMessage] },
            pad) := by
  have hr := (PioProgram.read_true_iff hw value (-1) word _).2
    ⟨s0, q0, _, fl, words, hc, he, hwd, calm_nonpos _ (by decide) _ _, rfl⟩
  have hl := (PioProgram.writeLengthAndBytes_true_iff
    { hw with clock := s1 :: (q1 ++ (q2 ++ rest)), rxEmpty := fl, rxWords := words,
              log := hw.log ++ [Event.get word] } pad.statusMessage 3 (-1) _).2
    ⟨s1, q1, q2, rest, tf, rfl, ht, calm_nonpos _ (by decide) _ _,
      calm_nonpos _ (by decide) _ _, rfl⟩
  unfold mainStep
  simp only [hr, hcmd, RequestCommand.Info, if_true, hl]
  simp

theorem mainStep_controllerState (hw : Hw) (pad : Controller) (value : Nat)
    (s0 : Nat) (q0 : List Nat) (s1 : Nat) (q1 q2 rest : List Nat) (fl tf : List Bool)
    (word : Nat) (words : List Nat)
    (hc : hw.clock = s0 :: (q0 ++ s1 :: (q1 ++ (q2 ++ rest))))
    (he : hw.rxEmpty = List.replicate q0.length true ++ false :: fl)
    (hwd : hw.rxWords = word :: words)
    (ht : hw.txFull = List.replicate q1.length true ++
      false :: (List.replicate q2.length true ++ false :: tf))
    (hcmd : word % 256 = 0x01) :
    mainStep hw pad value =
      some ({ clock := rest, txFull := tf, rxEmpty := fl, rxWords := words,
              log := hw.log ++ [Event.get word, Event.put 31, Event.put pad.pollMessage] },
            pad) := by
  have hr := (PioProgram.read_true_iff hw value (-1) word _).2
    ⟨s0, q0, _, fl, words, hc, he, hwd, calm_nonpos _ (by decide) _ _, rfl⟩
  have hl := (PioProgram.writeLengthAndBytes_true_iff
    { hw with clock := s1 :: (q1 ++ (q2 ++ rest)), rxEmpty := fl, rxWords := words,
              log := hw.log ++ [Event.get word] } pad.pollMessage 4 (-1) _).2
    ⟨s1, q1, q2, rest, tf, rfl, ht, calm_nonpos _ (by decide) _ _,
      calm_nonpos _ (by decide) _ _, rfl⟩
  unfold mainStep
  simp only [hr, hcmd, RequestCommand.Info, RequestCommand.ControllerState, if_true, hl]
  simp

theorem mainStep_other (hw : Hw) (pad : Controller) (value : Nat)
    (s0 : Nat) (q0 rest : List Nat) (fl : List Bool) (word : Nat) (words : List Nat)
    (hc : hw.clock = s0 :: (q0 ++ rest))
    (he : hw.rxEmpty = List.replicate q0.length true ++ false :: fl)
    (hwd : hw.rxWords = word :: words)
    (h0 : word % 256 ≠ 0x00) (h1 : word % 256 ≠ 0x01) :
    mainStep hw pad value =
      some ({ hw with clock := rest, rxEmpty := fl, rxWords := words,
                      log := hw.log ++ [Event.get word] }, pad) := by
  have hr := (PioProgram.read_true_iff hw value (-1) word _).2
    ⟨s0, q0, _, fl, words, hc, he, hwd, calm_nonpos _ (by decide) _ _, rfl⟩
  unfold mainStep
  simp only [hr, RequestCommand.Info, RequestCommand.ControllerState, h0, h1, if_false]

/-! ## The two views of the controller state -/

/-- C1: overwriting the poll view, through `setFromPollValue` or through the
`pollMessage()` reference, leaves the status view as it was, and storing a
word through the `statusMessage()` reference leaves the poll view as it was. -/
theorem views_do_not_overlap (s : Controller) (w v : Nat) :
    (s.setFromPollValue w).statusMessage = s.statusMessage ∧
    (s.storePollMessage w).statusMessage = s.statusMessage ∧
    (s.storeStatusMessage v).pollMessage = s.pollMessage := by
  refine ⟨?_, ?_, ?_⟩
  · rw [statusMessage_eq, statusMessage_eq, setFromPollValue_eq]
  · rw [Controller.storePollMessage, ← Controller.setFromPollValue,
      statusMessage_eq, statusMessage_eq, setFromPollValue_eq]
  · rw [pollMessage_eq, pollMessage_eq, storeStatusMessage_eq]
    simp only [byteOfInt8_int8OfByte, Nat.mod_eq_of_lt (byteOfInt8_lt _)]
    omega

theorem pollMessage_setFromPollValue (s : Controller) (W : Nat) (hW : W < 4294967296) :
    (s.setFromPollValue W).pollMessage = W := by
  rw [pollMessage_eq, setFromPollValue_eq]
  simp only [byteOfInt8_int8OfByte]
  omega

/-- C2: a poll word `W` written by `setFromPollValue` is read back unchanged
through `pollMessage()`; for `W = 0` no button is set, both axes are `0`, and
a responder pass that receives command `0x01` queues the control word `31`
followed by the data word `0`. -/
theorem poll_write_then_read (s : Controller) (W : Nat) (hW : W < 4294967296) :
    (s.setFromPollValue W).pollMessage = W ∧
    (s.setFromPollValue 0).pollMessage = 0 ∧
    (s.setFromPollValue 0).buttons = 0 ∧
    (s.setFromPollValue 0).xAxis = 0 ∧
    (s.setFromPollValue 0).yAxis = 0 ∧
    (∀ button, (s.setFromPollValue 0).getButton button = false) ∧
    (∀ (hw : Hw) (value s0 : Nat) (q0 : List Nat) (s1 : Nat) (q1 q2 rest : List Nat)
        (fl tf : List Bool) (word : Nat) (words : List Nat),
      hw.clock = s0 :: (q0 ++ s1 :: (q1 ++ (q2 ++ rest))) →
      hw.rxEmpty = List.replicate q0.length true ++ false :: fl →
      hw.rxWords = word :: words →
      hw.txFull = List.replicate q1.length true ++
        false :: (List.replicate q2.length true ++ false :: tf) →
      word % 256 = 0x01 →
      mainStep hw (s.setFromPollValue 0) value =
        some ({ clock := rest, txFull := tf, rxEmpty := fl, rxWords := words,
                log := hw.log ++ [Event.get word, Event.put 31, Event.put 0x00000000] },
              s.setFromPollValue 0)) := by
  have h0 : (s.setFromPollValue 0).pollMessage = 0 :=
    pollMessage_setFromPollValue s 0 (by decide)
  refine ⟨pollMessage_setFromPollValue s W hW, h0, ?_, ?_, ?_, ?_, ?_⟩
  · simp [setFromPollValue_eq]
  · simp [setFromPollValue_eq, int8OfByte]
  · simp [setFromPollValue_eq, int8OfByte]
  · intro button
    simp [setFromPollValue_eq, Controller.getButton, ButtonFlag.None]
  · intro hw value s0 q0 s1 q1 q2 rest fl tf word words hc he hwd ht hcmd
    rw [mainStep_controllerState hw _ value s0 q0 s1 q1 q2 rest fl tf word words hc he hwd ht
      hcmd, h0]

theorem poll_write_then_read_witness :
    (0x80017F80 : Nat) < 4294967296 ∧
    (({} : Controller).setFromPollValue 0x80017F80).pollMessage = 0x80017F80 ∧
    mainStep ⟨[5, 6, 7, 9], [true, false, false], [true, false], [0x01], []⟩
        (({} : Controller).setFromPollValue 0) 0 =
      some (⟨[], [], [], [], [Event.get 1, Event.put 31, Event.put 0]⟩,
            ({} : Controller).setFromPollValue 0) :=
  ⟨by decide,
   (poll_write_then_read {} 0x80017F80 (by decide)).1,
   (poll_write_then_read {} 0x80017F80 (by decide)).2.2.2.2.2.2
     ⟨[5, 6, 7, 9], [true, false, false], [true, false], [0x01], []⟩ 0
     5 [6] 7 [9] [] [] [] [] 1 [] rfl rfl rfl rfl rfl⟩

/-- C4: the three most significant bytes of the status word, most significant
first, are header byte 1, header byte 2 and the status-flags byte; the status
word of the default constructed controller is `0x05000000`, its reply bytes
are `[0x05, 0x00, 0x00]`, and a responder pass that receives command `0x00`
queues the control word `23` followed by that word. -/
theorem status_reply_layout (s : Controller) (hs : s.WF) :
    msbBytes s.statusMessage 3 = [s.header1, s.header2, s.status] ∧
    pad1.statusMessage = 0x05000000 ∧
    msbBytes pad1.statusMessage 3 = [0x05, 0x00, 0x00] ∧
    (∀ (hw : Hw) (value s0 : Nat) (q0 : List Nat) (s1 : Nat) (q1 q2 rest : List Nat)
        (fl tf : List Bool) (word : Nat) (words : List Nat),
      hw.clock = s0 :: (q0 ++ s1 :: (q1 ++ (q2 ++ rest))) →
      hw.rxEmpty = List.replicate q0.length true ++ false :: fl →
      hw.rxWords = word :: words →
      hw.txFull = List.replicate q1.length true ++
        false :: (List.replicate q2.length true ++ false :: tf) →
      word % 256 = 0x00 →
      mainStep hw pad1 value =
        some ({ clock := rest, txFull := tf, rxEmpty := fl, rxWords := words,
                log := hw.log ++ [Event.get word, Event.put 23, Event.put 0x05000000] },
              pad1)) := by
  obtain ⟨h1, h2, h3, h4, -, -, -⟩ := hs
  have hp : pad1.statusMessage = 0x05000000 := by
    rw [statusMessage_eq]; rfl
  refine ⟨?_, hp, ?_, ?_⟩
  · rw [msbBytes_three, statusMessage_eq]
    refine congrArg₂ _ ?_ (congrArg₂ _ ?_ (congrArg₂ _ ?_ rfl)) <;> omega
  · rw [hp, msbBytes_three]
  · intro hw value s0 q0 s1 q1 q2 rest fl tf word words hc he hwd ht hcmd
    rw [mainStep_info hw _ value s0 q0 s1 q1 q2 rest fl tf word words hc he hwd ht hcmd, hp]

theorem status_reply_layout_witness :
    (⟨0, 0x01, 0x02, 0x05, -7, 100, 0x8001⟩ : Controller).WF ∧
    msbBytes (⟨0, 0x01, 0x02, 0x05, -7, 100, 0x8001⟩ : Controller).statusMessage 3
      = [0x05, 0x02, 0x01] :=
  ⟨by decide, (status_reply_layout _ (by decide)).1⟩

/-- C5, as stated, fails: with only `CRight` (bit 0 of the button word) set,
the poll word is `0x00010000`, whose bytes, most significant first, are
`[0x00, 0x01, 0x00, 0x00]`: the high byte of the button word comes first, not
its low byte. -/
theorem poll_bytes_low_button_byte_first_fails :
    (⟨0, 0, 0, 0x05, 0, 0, ButtonFlag.CRight⟩ : Controller).WF ∧
    (⟨0, 0, 0, 0x05, 0, 0, ButtonFlag.CRight⟩ : Controller).pollMessage = 0x00010000 ∧
    msbBytes (⟨0, 0, 0, 0x05, 0, 0, ButtonFlag.CRight⟩ : Controller).pollMessage 4
      = [0x00, 0x01, 0x00, 0x00] ∧
    msbBytes (⟨0, 0, 0, 0x05, 0, 0, ButtonFlag.CRight⟩ : Controller).pollMessage 4 ≠
      [(⟨0, 0, 0, 0x05, 0, 0, ButtonFlag.CRight⟩ : Controller).buttons % 256,
       (⟨0, 0, 0, 0x05, 0, 0, ButtonFlag.CRight⟩ : Controller).buttons / 256,
       byteOfInt8 (⟨0, 0, 0, 0x05, 0, 0, ButtonFlag.CRight⟩ : Controller).xAxis,
       byteOfInt8 (⟨0, 0, 0, 0x05, 0, 0, ButtonFlag.CRight⟩ : Controller).yAxis] := by
  refine ⟨by decide, ?_, ?_, ?_⟩
  · rw [pollMessage_eq]; decide
  · rw [msbBytes_four, pollMessage_eq]; decide
  · rw [msbBytes_four, pollMessage_eq]; decide

/-- C5, amended: the four bytes of the poll word, most significant first, are
the high byte of the button word, its low byte, the x-axis byte and the y-axis
byte; the poll word is the little-endian reading of the four memory bytes
`yAxis`, `xAxis`, `buttons` (low byte, high byte). -/
theorem poll_reply_layout (s : Controller) (hs : s.WF) :
    msbBytes s.pollMessage 4 =
      [s.buttons / 256, s.buttons % 256, byteOfInt8 s.xAxis, byteOfInt8 s.yAxis] ∧
    s.pollMessage =
      load32 [byteOfInt8 s.yAxis, byteOfInt8 s.xAxis, s.buttons % 256, s.buttons / 256] 0 ∧
    s.pollMessage = byteOfInt8 s.yAxis + 256 * byteOfInt8 s.xAxis + 65536 * s.buttons ∧
    int8OfByte (byteOfInt8 s.xAxis) = s.xAxis ∧
    int8OfByte (byteOfInt8 s.yAxis) = s.yAxis := by
  obtain ⟨-, -, -, -, hy, hx, hb⟩ := hs
  have bx := byteOfInt8_lt s.xAxis
  have by_ := byteOfInt8_lt s.yAxis
  refine ⟨?_, ?_, ?_, int8OfByte_byteOfInt8 _ hx.1 hx.2, int8OfByte_byteOfInt8 _ hy.1 hy.2⟩
  · rw [msbBytes_four, pollMessage_eq]
    refine congrArg₂ _ ?_ (congrArg₂ _ ?_ (congrArg₂ _ ?_ (congrArg₂ _ ?_ rfl))) <;> omega
  · rw [pollMessage_eq]
    simp only [load32, List.getD_cons_zero, List.getD_cons_succ]
    omega
  · rw [pollMessage_eq]
    omega

theorem poll_reply_layout_witness :
    (⟨0, 0, 0, 0x05, -7, 100, 0x8001⟩ : Controller).WF ∧
    msbBytes (⟨0, 0, 0, 0x05, -7, 100, 0x8001⟩ : Controller).pollMessage 4
      = [0x80, 0x01, 100, 249] :=
  ⟨by decide, (poll_reply_layout _ (by decide)).1⟩

/-! ## Flags and buttons -/

/-- C9: `setStatusFlag(f, v)` replaces `status` by `status | f` or
`status & ~f` and changes no other field; afterwards `getStatusFlag(f) = v` for
the three single-bit flags (bits 0, 1, 2), and `getStatusFlag(g)` is as before
for every flag `g` that shares no bit with `f`.  Likewise `setButton(b, v)`
replaces `buttons` by `buttons | b` or `buttons & ~b` and changes no other
field, and the sixteen button flags are independent of one another. -/
theorem flag_mutation_is_exact (s : Controller) (hs : s.WF) (f : Nat) (hf : f < 256)
    (b : Nat) (hb : b < 65536) (v : Bool) :
    s.setStatusFlag f v =
      { s with status := if v then s.status ||| f else s.status &&& (255 - f) } ∧
    (s.setStatusFlag f v).WF ∧
    StatusFlag.all = [2 ^ 0, 2 ^ 1, 2 ^ 2] ∧
    (f ∈ StatusFlag.all → (s.setStatusFlag f v).getStatusFlag f = v) ∧
    (∀ g, g < 256 → g &&& f = 0 →
      (s.setStatusFlag f v).getStatusFlag g = s.getStatusFlag g) ∧
    (f ∈ StatusFlag.all → ∀ g ∈ StatusFlag.None :: StatusFlag.all, g ≠ f →
      (s.setStatusFlag f v).getStatusFlag g = s.getStatusFlag g) ∧
    s.setButton b v =
      { s with buttons := if v then s.buttons ||| b else s.buttons &&& (65535 - b) } ∧
    (s.setButton b v).WF ∧
    (∀ k, k < 16 → (s.setButton (ButtonFlag.all.getD k 0) v).getButton
        (ButtonFlag.all.getD k 0) = v) ∧
    (∀ j k, j < 16 → k < 16 → j ≠ k →
      (s.setButton (ButtonFlag.all.getD k 0) v).getButton (ButtonFlag.all.getD j 0)
        = s.getButton (ButtonFlag.all.getD j 0)) := by
  obtain ⟨h1, h2, h3, h4, hy, hx, h7⟩ := hs
  have hpow : ∀ k, k < 16 → 2 ^ k < 65536 := fun k hk =>
    Nat.pow_lt_pow_right (by decide : 1 < 2) (show k < 16 from hk)
  refine ⟨setStatusFlag_eq s f v h2 hf, ?_, rfl, ?_, ?_, ?_, setButton_eq s b v h7 hb, ?_, ?_, ?_⟩
  · rw [setStatusFlag_eq s f v h2 hf]
    refine ⟨h1, ?_, h3, h4, hy, hx, h7⟩
    cases v
    · exact Nat.lt_of_le_of_lt Nat.and_le_left h2
    · exact lor_lt_u8 _ _ h2 hf
  · intro hmem
    apply getStatusFlag_set_same s f v h2 hf
    rintro rfl
    revert hmem
    decide
  · intro g hg hgf
    exact getStatusFlag_set_other s f g v h2 hf hg hgf
  · intro hmem g hg hne
    have hg' : g = 0 ∨ g = 1 ∨ g = 2 ∨ g = 4 := by
      simpa [StatusFlag.all, StatusFlag.None, StatusFlag.PakInserted, StatusFlag.PakRemoved,
        StatusFlag.AddressCrcError] using hg
    have hf' : f = 1 ∨ f = 2 ∨ f = 4 := by
      simpa [StatusFlag.all, StatusFlag.PakInserted, StatusFlag.PakRemoved,
        StatusFlag.AddressCrcError] using hmem
    apply getStatusFlag_set_other s f g v h2 hf (by omega)
    rcases hg' with rfl | rfl | rfl | rfl <;> rcases hf' with rfl | rfl | rfl <;>
      first | rfl | exact absurd rfl hne
  · rw [setButton_eq s b v h7 hb]
    refine ⟨h1, h2, h3, h4, hy, hx, ?_⟩
    cases v
    · exact Nat.lt_of_le_of_lt Nat.and_le_left h7
    · exact lor_lt_u16 _ _ h7 hb
  · intro k hk
    rw [buttonFlag_all_getD k hk]
    exact getButton_set_same s (2 ^ k) v h7 (hpow k hk) (Nat.pos_iff_ne_zero.1 (Nat.two_pow_pos k))
  · intro j k hj hk hjk
    rw [buttonFlag_all_getD k hk, buttonFlag_all_getD j hj]
    exact getButton_set_other s (2 ^ k) (2 ^ j) v h7 (hpow k hk) (hpow j hj)
      (two_pow_land_two_pow j k hjk)

theorem flag_mutation_is_exact_witness :
    (⟨0, 0x05, 0, 0x05, -7, 100, 0x8001⟩ : Controller).WF ∧ (0x02 : Nat) < 256 ∧
    (0x2000 : Nat) < 65536 ∧
    (⟨0, 0x05, 0, 0x05, -7, 100, 0x8001⟩ : Controller).setStatusFlag 0x02 true
      = ⟨0, 0x07, 0, 0x05, -7, 100, 0x8001⟩ ∧
    (⟨0, 0x05, 0, 0x05, -7, 100, 0x8001⟩ : Controller).setButton 0x2000 true
      = ⟨0, 0x05, 0, 0x05, -7, 100, 0xA001⟩ :=
  ⟨by decide, by decide, by decide,
   (flag_mutation_is_exact ⟨0, 0x05, 0, 0x05, -7, 100, 0x8001⟩ (by decide) 0x02 (by decide)
      0x2000 (by decide) true).1,
   (flag_mutation_is_exact ⟨0, 0x05, 0, 0x05, -7, 100, 0x8001⟩ (by decide) 0x02 (by decide)
      0x2000 (by decide) true).2.2.2.2.2.2.1⟩

/-- C10: after `setFromPollValue(W)` the button field is the upper 16 bits of
`W`, `xAxis` is bits 8..15 of `W` and `yAxis` bits 0..7 of `W`, each read as a
signed 8-bit value in `[-128, 127]`, and `getButton` of the `k`-th name of
CRight, CLeft, CDown, CUp, R, L, Reserved, Reset, PadRight, PadLeft, PadDown,
PadUp, Start, Z, B, A is bit `k` of the button word, which is bit `16 + k` of
`W`. -/
theorem poll_word_decoding (s : Controller) (W : Nat) (hW : W < 4294967296) :
    (s.setFromPollValue W).buttons = W / 65536 ∧
    (s.setFromPollValue W).xAxis = int8OfByte (W / 256 % 256) ∧
    (s.setFromPollValue W).yAxis = int8OfByte (W % 256) ∧
    (-128 ≤ (s.setFromPollValue W).xAxis ∧ (s.setFromPollValue W).xAxis ≤ 127 ∧
      (s.setFromPollValue W).xAxis % 256 = ((W / 256 % 256 : Nat) : Int)) ∧
    (-128 ≤ (s.setFromPollValue W).yAxis ∧ (s.setFromPollValue W).yAxis ≤ 127 ∧
      (s.setFromPollValue W).yAxis % 256 = ((W % 256 : Nat) : Int)) ∧
    ButtonFlag.all =
      [ButtonFlag.CRight, ButtonFlag.CLeft, ButtonFlag.CDown, ButtonFlag.CUp, ButtonFlag.R,
       ButtonFlag.L, ButtonFlag.Reserved, ButtonFlag.Reset, ButtonFlag.PadRight,
       ButtonFlag.PadLeft, ButtonFlag.PadDown, ButtonFlag.PadUp, ButtonFlag.Start,
       ButtonFlag.Z, ButtonFlag.B, ButtonFlag.A] ∧
    (∀ k, k < 16 →
      (s.setFromPollValue W).getButton (ButtonFlag.all.getD k 0)
        = (s.setFromPollValue W).buttons.testBit k ∧
      (s.setFromPollValue W).buttons.testBit k = W.testBit (16 + k)) := by
  have hb : (s.setFromPollValue W).buttons = W / 65536 := by
    rw [setFromPollValue_eq]
    show W / 65536 % 256 + 256 * (W / 16777216 % 256) = W / 65536
    omega
  have hx : (s.setFromPollValue W).xAxis = int8OfByte (W / 256 % 256) := by
    rw [setFromPollValue_eq]
  have hy : (s.setFromPollValue W).yAxis = int8OfByte (W % 256) := by
    rw [setFromPollValue_eq]
  refine ⟨hb, hx, hy, ?_, ?_, rfl, ?_⟩
  · rw [hx]
    have := int8OfByte_range (W / 256 % 256)
    have e := int8OfByte_emod (W / 256 % 256)
    rw [Nat.mod_mod] at e
    exact ⟨this.1, this.2, e⟩
  · rw [hy]
    have := int8OfByte_range (W % 256)
    have e := int8OfByte_emod (W % 256)
    rw [Nat.mod_mod] at e
    exact ⟨this.1, this.2, e⟩
  · intro k hk
    refine ⟨?_, ?_⟩
    · rw [buttonFlag_all_getD k hk]
      exact getButton_two_pow _ k hk
    · rw [hb, show (65536 : Nat) = 2 ^ 16 from rfl, ← Nat.shiftRight_eq_div_pow,
        Nat.testBit_shiftRight]

theorem poll_word_decoding_witness :
    (0x80017F80 : Nat) < 4294967296 ∧
    (({} : Controller).setFromPollValue 0x80017F80).buttons = 0x8001 ∧
    (({} : Controller).setFromPollValue 0x80017F80).xAxis = 127 ∧
    (({} : Controller).setFromPollValue 0x80017F80).yAxis = -128 :=
  ⟨by decide,
   (poll_word_decoding {} 0x80017F80 (by decide)).1,
   (poll_word_decoding {} 0x80017F80 (by decide)).2.1,
   (poll_word_decoding {} 0x80017F80 (by decide)).2.2.1⟩

/-! ## The responder loop -/

/-- C3: one responder pass that has received the word `word`, whose low byte
is the command, queues the control word `23` and the status view for command
`0x00`, the control word `31` and the poll view for command `0x01`, and
nothing for any other command; it returns whenever the FIFOs become ready, and
the controller state is as before in all three cases. -/
theorem responder_dispatch (hw : Hw) (pad : Controller) (value : Nat) :
    (∀ hw1 padOut, mainStep hw pad value = some (hw1, padOut) →
      padOut = pad ∧ ∃ word words, hw.rxWords = word :: words ∧ hw1.rxWords = words ∧
        (word % 256 = 0x00 →
          hw1.log = hw.log ++ [Event.get word, Event.put 23, Event.put pad.statusMessage]) ∧
        (word % 256 = 0x01 →
          hw1.log = hw.log ++ [Event.get word, Event.put 31, Event.put pad.pollMessage]) ∧
        (word % 256 ≠ 0x00 → word % 256 ≠ 0x01 → hw1.log = hw.log ++ [Event.get word])) ∧
    (∀ (s0 : Nat) (q0 : List Nat) (s1 : Nat) (q1 q2 rest : List Nat) (fl tf : List Bool)
        (word : Nat) (words : List Nat),
      hw.clock = s0 :: (q0 ++ s1 :: (q1 ++ (q2 ++ rest))) →
      hw.rxEmpty = List.replicate q0.length true ++ false :: fl →
      hw.rxWords = word :: words →
      hw.txFull = List.replicate q1.length true ++
        false :: (List.replicate q2.length true ++ false :: tf) →
      (word % 256 = 0x00 →
        mainStep hw pad value =
          some ({ clock := rest, txFull := tf, rxEmpty := fl, rxWords := words,
                  log := hw.log ++
                    [Event.get word, Event.put 23, Event.put pad.statusMessage] }, pad)) ∧
      (word % 256 = 0x01 →
        mainStep hw pad value =
          some ({ clock := rest, txFull := tf, rxEmpty := fl, rxWords := words,
                  log := hw.log ++
                    [Event.get word, Event.put 31, Event.put pad.pollMessage] }, pad))) ∧
    (∀ (s0 : Nat) (q0 rest : List Nat) (fl : List Bool) (word : Nat) (words : List Nat),
      hw.clock = s0 :: (q0 ++ rest) →
      hw.rxEmpty = List.replicate q0.length true ++ false :: fl →
      hw.rxWords = word :: words →
      word % 256 ≠ 0x00 → word % 256 ≠ 0x01 →
      mainStep hw pad value =
        some ({ hw with clock := rest, rxEmpty := fl, rxWords := words,
                        log := hw.log ++ [Event.get word] }, pad)) := by
  refine ⟨fun hw1 padOut h => mainStep_inv hw pad value hw1 padOut h, ?_, ?_⟩
  · intro s0 q0 s1 q1 q2 rest fl tf word words hc he hwd ht
    exact ⟨mainStep_info hw pad value s0 q0 s1 q1 q2 rest fl tf word words hc he hwd ht,
      mainStep_controllerState hw pad value s0 q0 s1 q1 q2 rest fl tf word words hc he hwd ht⟩
  · intro s0 q0 rest fl word words hc he hwd h0 h1
    exact mainStep_other hw pad value s0 q0 rest fl word words hc he hwd h0 h1

theorem responder_dispatch_witness :
    mainStep ⟨[5, 6, 7, 9], [true, false, false], [true, false], [0x00], []⟩
        ⟨0, 0x01, 0, 0x05, -7, 100, 0x8001⟩ 0xAA =
      some (⟨[], [], [], [], [Event.get 0, Event.put 23, Event.put 0x05000100]⟩,
            ⟨0, 0x01, 0, 0x05, -7, 100, 0x8001⟩) ∧
    mainStep ⟨[5, 6, 7, 9], [true, false, false], [true, false], [0xFF], []⟩
        ⟨0, 0x01, 0, 0x05, -7, 100, 0x8001⟩ 0xAA =
      some (⟨[7, 9], [true, false, false], [], [], [Event.get 0xFF]⟩,
            ⟨0, 0x01, 0, 0x05, -7, 100, 0x8001⟩) :=
  ⟨((responder_dispatch ⟨[5, 6, 7, 9], [true, false, false], [true, false], [0x00], []⟩
      ⟨0, 0x01, 0, 0x05, -7, 100, 0x8001⟩ 0xAA).2.1
      5 [6] 7 [9] [] [] [] [] 0 [] rfl rfl rfl rfl).1 rfl,
   (responder_dispatch ⟨[5, 6, 7, 9], [true, false, false], [true, false], [0xFF], []⟩
      ⟨0, 0x01, 0, 0x05, -7, 100, 0x8001⟩ 0xAA).2.2
      5 [6] [7, 9] [] 0xFF [] rfl rfl rfl (by decide) (by decide)⟩

/-! ## The bounded waits of the channel -/

theorem sub32_of_le (start now : Nat) (h : start ≤ now) (hn : now < 4294967296) :
    sub32 now start = now - start := by
  unfold sub32; omega

/-- C6, as stated, fails for large byte counts: the control word is computed in
`uint32_t`, so for `bytesToSend = 0x20000001` the word queued is `7`, not
`0x20000001 * 8 - 1`. -/
theorem control_word_wraps :
    (1 : Nat) ≤ 0x20000001 ∧ (0x20000001 : Nat) < 4294967296 ∧
    PioProgram.writeLengthAndBytes ⟨[0], [false, false], [], [], []⟩ 0xAB 0x20000001 (-1)
      = some (true, ⟨[], [], [], [], [Event.put 7, Event.put 0xAB]⟩) ∧
    Event.put 7 ≠ Event.put (0x20000001 * 8 - 1) := by
  refine ⟨by decide, by decide, rfl, by decide⟩

/-- C6, amended: for `1 <= bytesToSend <= 2^29` a successful
`writeLengthAndBytes` has queued exactly the control word `bytesToSend*8 - 1`
(`23` for 3 bytes, `31` for 4) and then `data`; when the first wait trips the
timeout test it returns failure with nothing queued and without a single
observation of the second wait; when the second wait trips it, it returns
failure with only the control word queued.  For any `bytesToSend` the control
word is `bytesToSend*8 - 1` modulo `2^32`. -/
theorem writeLengthAndBytes_protocol (hw : Hw) (data n : Nat) (t : Int)
    (h1 : 1 ≤ n) (h29 : n ≤ 536870912) :
    (3 * 8 - 1 = 23 ∧ 4 * 8 - 1 = 31) ∧
    (∀ hw1, PioProgram.writeLengthAndBytes hw data n t = some (true, hw1) →
      hw1.log = hw.log ++ [Event.put (n * 8 - 1), Event.put data]) ∧
    (∀ hw1, PioProgram.writeLengthAndBytes hw data n t = some (false, hw1) →
      hw1.log = hw.log ∨ hw1.log = hw.log ++ [Event.put (n * 8 - 1)]) ∧
    (∀ (start : Nat) (q1 q2 rest : List Nat) (flags : List Bool),
      hw.clock = start :: (q1 ++ (q2 ++ rest)) →
      hw.txFull = List.replicate q1.length true ++
        false :: (List.replicate q2.length true ++ false :: flags) →
      calm t start q1 → calm t start q2 →
      PioProgram.writeLengthAndBytes hw data n t =
        some (true, { hw with clock := rest, txFull := flags,
                              log := hw.log ++ [Event.put (n * 8 - 1), Event.put data] })) ∧
    (∀ (start : Nat) (quiet : List Nat) (late : Nat) (rest : List Nat) (flags : List Bool),
      hw.clock = start :: (quiet ++ late :: rest) →
      hw.txFull = List.replicate (quiet.length + 1) true ++ flags →
      calm t start quiet → expired t start late = true →
      PioProgram.writeLengthAndBytes hw data n t =
        some (false, { hw with clock := rest, txFull := flags })) ∧
    (∀ (start : Nat) (q1 q2 : List Nat) (late : Nat) (rest : List Nat) (flags : List Bool),
      hw.clock = start :: (q1 ++ (q2 ++ late :: rest)) →
      hw.txFull = List.replicate q1.length true ++
        false :: (List.replicate (q2.length + 1) true ++ flags) →
      calm t start q1 → calm t start q2 → expired t start late = true →
      PioProgram.writeLengthAndBytes hw data n t =
        some (false, { hw with clock := rest, txFull := flags,
                               log := hw.log ++ [Event.put (n * 8 - 1)] })) ∧
    (∀ (m : Nat) hw1, PioProgram.writeLengthAndBytes hw data m t = some (true, hw1) →
      hw1.log = hw.log ++
        [Event.put ((m * 8 + 4294967296 - 1) % 4294967296), Event.put data]) := by
  have hc : (n * 8 + 4294967296 - 1) % 4294967296 = n * 8 - 1 := by omega
  refine ⟨⟨rfl, rfl⟩, ?_, ?_, ?_, ?_, ?_, ?_⟩
  · intro hw1 h
    obtain ⟨_, _, _, _, _, _, _, _, _, rfl⟩ :=
      (PioProgram.writeLengthAndBytes_true_iff hw data n t hw1).1 h
    simp
    omega
  · intro hw1 h
    rcases (PioProgram.writeLengthAndBytes_false_iff hw data n t hw1).1 h with
      ⟨_, _, _, _, _, _, _, _, _, rfl⟩ | ⟨_, _, _, _, _, _, _, _, _, _, _, rfl⟩
    · exact Or.inl rfl
    · exact Or.inr (by simp; omega)
  · intro start q1 q2 rest flags hcl hf hq1 hq2
    rw [(PioProgram.writeLengthAndBytes_true_iff hw data n t _).2
      ⟨start, q1, q2, rest, flags, hcl, hf, hq1, hq2, rfl⟩]
    simp
    omega
  · intro start quiet late rest flags hcl hf hq hl
    exact (PioProgram.writeLengthAndBytes_false_iff hw data n t _).2
      (Or.inl ⟨start, quiet, late, rest, flags, hcl, hf, hq, hl, rfl⟩)
  · intro start q1 q2 late rest flags hcl hf hq1 hq2 hl
    rw [(PioProgram.writeLengthAndBytes_false_iff hw data n t _).2
      (Or.inr ⟨start, q1, q2, late, rest, flags, hcl, hf, hq1, hq2, hl, rfl⟩)]
    simp
    omega
  · intro m hw1 h
    obtain ⟨_, _, _, _, _, _, _, _, _, rfl⟩ :=
      (PioProgram.writeLengthAndBytes_true_iff hw data m t hw1).1 h
    simp

theorem writeLengthAndBytes_protocol_witness :
    (1 : Nat) ≤ 3 ∧ (3 : Nat) ≤ 536870912 ∧
    PioProgram.writeLengthAndBytes
        ⟨[100, 105, 111, 120], [true, false, true, true], [], [], []⟩ 0x05000000 3 10
      = some (false, ⟨[120], [true], [], [], [Event.put 23]⟩) ∧
    PioProgram.writeLengthAndBytes
        ⟨[100, 105, 111, 120], [true, true, false, false], [], [], []⟩ 0x05000000 3 10
      = some (false, ⟨[120], [false, false], [], [], []⟩) ∧
    PioProgram.writeLengthAndBytes
        ⟨[100, 105, 110], [true, false, true, false], [], [], []⟩ 0x05000000 3 10
      = some (true, ⟨[], [], [], [], [Event.put 23, Event.put 0x05000000]⟩) :=
  ⟨by decide, by decide,
   (writeLengthAndBytes_protocol
      ⟨[100, 105, 111, 120], [true, false, true, true], [], [], []⟩ 0x05000000 3 10
      (by decide) (by decide)).2.2.2.2.2.1 100 [105] [] 111 [120] [true] rfl rfl
      (by decide) (by decide) rfl,
   (writeLengthAndBytes_protocol
      ⟨[100, 105, 111, 120], [true, true, false, false], [], [], []⟩ 0x05000000 3 10
      (by decide) (by decide)).2.2.2.2.1 100 [105] 111 [120] [false, false] rfl rfl
      (by decide) rfl,
   (writeLengthAndBytes_protocol
      ⟨[100, 105, 110], [true, false, true, false], [], [], []⟩ 0x05000000 3 10
      (by decide) (by decide)).2.2.2.1 100 [105] [110] [] [] rfl rfl
      (by decide) (by decide)⟩

/-- C7: with `timeoutMs <= 0` neither `write` nor `read` ever returns failure,
and each keeps waiting for as long as its FIFO is not ready.  With
`timeoutMs = T > 0` each returns failure exactly when some reading `late`,
taken while the FIFO is still not ready, has `late - start` (modulo `2^32`)
strictly greater than `T` and no earlier reading had; on a clock that has not
wrapped that difference is `late - start`.  A failed call has queued and taken
nothing and has left the output variable as it was. -/
theorem timeout_semantics (hw : Hw) (data : Nat) (T : Nat) (h0 : 0 < T)
    (h31 : T < 2147483648) :
    (∀ t : Int, t ≤ 0 →
      (∀ hw1, PioProgram.write hw data t ≠ some (false, hw1)) ∧
      (∀ data1 hw1, PioProgram.read hw data t ≠ some (false, data1, hw1)) ∧
      (∀ n, hw.txFull = List.replicate n true → PioProgram.write hw data t = none) ∧
      (∀ n, hw.rxEmpty = List.replicate n true → PioProgram.read hw data t = none)) ∧
    (∀ hw1, PioProgram.write hw data (T : Int) = some (false, hw1) ↔
      ∃ start quiet late rest flags,
        hw.clock = start :: (quiet ++ late :: rest) ∧
        hw.txFull = List.replicate (quiet.length + 1) true ++ flags ∧
        (∀ now ∈ quiet, sub32 now start ≤ T) ∧ T < sub32 late start ∧
        hw1 = { hw with clock := rest, txFull := flags }) ∧
    (∀ data1 hw1, PioProgram.read hw data (T : Int) = some (false, data1, hw1) ↔
      ∃ start quiet late rest flags,
        hw.clock = start :: (quiet ++ late :: rest) ∧
        hw.rxEmpty = List.replicate (quiet.length + 1) true ++ flags ∧
        (∀ now ∈ quiet, sub32 now start ≤ T) ∧ T < sub32 late start ∧
        data1 = data ∧ hw1 = { hw with clock := rest, rxEmpty := flags }) ∧
    (∀ hw1, PioProgram.write hw data (T : Int) = some (false, hw1) →
      hw1.log = hw.log ∧ hw1.rxWords = hw.rxWords) ∧
    (∀ data1 hw1, PioProgram.read hw data (T : Int) = some (false, data1, hw1) →
      data1 = data ∧ hw1.log = hw.log ∧ hw1.rxWords = hw.rxWords) ∧
    (∀ start late, start ≤ late → late < 4294967296 → sub32 late start = late - start) := by
  have hexp : ∀ start late, expired (T : Int) start late = true ↔ T < sub32 late start := by
    intro start late
    rw [expired_pos T h0 h31]
    simp
  refine ⟨?_, ?_, ?_, ?_, ?_, fun start late h hl => sub32_of_le start late h hl⟩
  · intro t ht
    exact ⟨fun hw1 => PioProgram.write_nonpos hw data t ht hw1,
      fun data1 hw1 => PioProgram.read_nonpos hw data t ht data1 hw1,
      fun n hf => PioProgram.write_pending hw data t ht n hf,
      fun n hf => PioProgram.read_pending hw data t ht n hf⟩
  · intro hw1
    rw [PioProgram.write_false_iff]
    constructor
    · rintro ⟨start, quiet, late, rest, flags, hc, hf, hq, hl, rfl⟩
      exact ⟨start, quiet, late, rest, flags, hc, hf, (calm_pos T h0 h31 start quiet).1 hq,
        (hexp start late).1 hl, rfl⟩
    · rintro ⟨start, quiet, late, rest, flags, hc, hf, hq, hl, rfl⟩
      exact ⟨start, quiet, late, rest, flags, hc, hf, (calm_pos T h0 h31 start quiet).2 hq,
        (hexp start late).2 hl, rfl⟩
  · intro data1 hw1
    rw [PioProgram.read_false_iff]
    constructor
    · rintro ⟨start, quiet, late, rest, flags, hc, hf, hq, hl, rfl, rfl⟩
      exact ⟨start, quiet, late, rest, flags, hc, hf, (calm_pos T h0 h31 start quiet).1 hq,
        (hexp start late).1 hl, rfl, rfl⟩
    · rintro ⟨start, quiet, late, rest, flags, hc, hf, hq, hl, rfl, rfl⟩
      exact ⟨start, quiet, late, rest, flags, hc, hf, (calm_pos T h0 h31 start quiet).2 hq,
        (hexp start late).2 hl, rfl, rfl⟩
  · intro hw1 h
    obtain ⟨_, _, _, _, _, _, _, _, _, rfl⟩ := (PioProgram.write_false_iff hw data T hw1).1 h
    exact ⟨rfl, rfl⟩
  · intro data1 hw1 h
    obtain ⟨_, _, _, _, _, _, _, _, _, rfl, rfl⟩ :=
      (PioProgram.read_false_iff hw data T data1 hw1).1 h
    exact ⟨rfl, rfl, rfl⟩

theorem timeout_semantics_witness :
    (0 : Nat) < 10 ∧ (10 : Nat) < 2147483648 ∧
    PioProgram.read ⟨[4294967290, 4294967295, 4, 5, 6], [], [true, true, true, false], [0x2A], []⟩
        0xDEAD ((10 : Nat) : Int)
      = some (false, 0xDEAD, ⟨[6], [], [false], [0x2A], []⟩) ∧
    PioProgram.write ⟨[100, 105, 110, 111, 120], [true, true, true, true], [], [], []⟩
        0x01000000 ((10 : Nat) : Int)
      = some (false, ⟨[120], [true], [], [], []⟩) :=
  ⟨by decide, by decide,
   ((timeout_semantics
      ⟨[4294967290, 4294967295, 4, 5, 6], [], [true, true, true, false], [0x2A], []⟩
      0xDEAD 10 (by decide) (by decide)).2.2.1 0xDEAD ⟨[6], [], [false], [0x2A], []⟩).2
      ⟨4294967290, [4294967295, 4], 5, [6], [false], rfl, rfl, by decide, by decide, rfl, rfl⟩,
   ((timeout_semantics
      ⟨[100, 105, 110, 111, 120], [true, true, true, true], [], [], []⟩
      0x01000000 10 (by decide) (by decide)).2.1 ⟨[120], [true], [], [], []⟩).2
      ⟨100, [105, 110], 111, [120], [true], rfl, rfl, by decide, by decide, rfl⟩⟩

/-! ## The poller loop -/

theorem writeByte_controllerState (hw : Hw) (t : Int) :
    PioProgram.writeByte hw RequestCommand.ControllerState t
      = PioProgram.write hw 0x01000000 t := rfl

theorem updatePadStep_send_timeout (s : Poller) (hw1 : Hw)
    (h : PioProgram.writeByte s.n64Host RequestCommand.ControllerState 10 = some (false, hw1)) :
    updatePadStep s = some { s with n64Host := sleep_ms (PioProgram.reset hw1) 1000 } ∧
    (sleep_ms (PioProgram.reset hw1) 1000).log
      = s.n64Host.log ++ [Event.reset, Event.sleep 1000] ∧
    (sleep_ms (PioProgram.reset hw1) 1000).rxEmpty = s.n64Host.rxEmpty ∧
    (sleep_ms (PioProgram.reset hw1) 1000).rxWords = s.n64Host.rxWords := by
  refine ⟨by unfold updatePadStep; simp only [h], ?_⟩
  rw [writeByte_controllerState] at h
  obtain ⟨_, _, _, _, _, _, _, _, _, rfl⟩ := (PioProgram.write_false_iff _ _ _ hw1).1 h
  simp [sleep_ms, PioProgram.reset]

theorem updatePadStep_receive_timeout (s : Poller) (hw1 : Hw) (msg : Nat) (hw2 : Hw)
    (h : PioProgram.writeByte s.n64Host RequestCommand.ControllerState 10 = some (true, hw1))
    (hr : PioProgram.read hw1 s.pollMsg 10 = some (false, msg, hw2)) :
    updatePadStep s =
      some { n64Host := sleep_ms (PioProgram.reset hw2) 1000, pad1 := s.pad1,
             pollMsg := s.pollMsg } ∧
    (sleep_ms (PioProgram.reset hw2) 1000).log
      = s.n64Host.log ++ [Event.put 0x01000000, Event.reset, Event.sleep 1000] ∧
    (sleep_ms (PioProgram.reset hw2) 1000).rxWords = s.n64Host.rxWords := by
  have hm : msg = s.pollMsg := by
    obtain ⟨_, _, _, _, _, _, _, _, _, hm, _⟩ := (PioProgram.read_false_iff _ _ _ msg hw2).1 hr
    exact hm
  subst hm
  refine ⟨by unfold updatePadStep; simp only [h, hr], ?_⟩
  rw [writeByte_controllerState] at h
  obtain ⟨_, _, _, _, _, _, _, rfl⟩ := (PioProgram.write_true_iff _ _ _ hw1).1 h
  obtain ⟨_, _, _, _, _, _, _, _, _, _, rfl⟩ := (PioProgram.read_false_iff _ _ _ _ hw2).1 hr
  simp [sleep_ms, PioProgram.reset]

theorem updatePadStep_publish (s : Poller) (hw1 : Hw) (msg : Nat) (hw2 : Hw)
    (h : PioProgram.writeByte s.n64Host RequestCommand.ControllerState 10 = some (true, hw1))
    (hr : PioProgram.read hw1 s.pollMsg 10 = some (true, msg, hw2)) :
    updatePadStep s =
      some { n64Host := sleep_ms hw2 16, pad1 := s.pad1.setFromPollValue msg,
             pollMsg := msg } ∧
    (sleep_ms hw2 16).log
      = s.n64Host.log ++ [Event.put 0x01000000, Event.get msg, Event.sleep 16] := by
  refine ⟨by unfold updatePadStep; simp only [h, hr], ?_⟩
  rw [writeByte_controllerState] at h
  obtain ⟨_, _, _, _, _, _, _, rfl⟩ := (PioProgram.write_true_iff _ _ _ hw1).1 h
  obtain ⟨_, _, _, _, _, _, _, _, _, rfl⟩ := (PioProgram.read_true_iff _ _ _ _ hw2).1 hr
  simp [sleep_ms]

/-- C8: in one poller pass, a failed send of the controller-state query
(timeout 10 ms) is followed by exactly one `reset()` and `sleep_ms(1000)`, with
no receive attempted and the controller state as before; a failed receive
(timeout 10 ms) after a successful send is followed by the same single reset
and backoff, again with the controller state as before.  When the send fails
twice in a row, the third pass starts after exactly two resets, each followed
by the 1000 ms sleep, and a pass that fails is always followed by the next
pass. -/
theorem poller_recovery (s : Poller) :
    (∀ hw1,
      PioProgram.writeByte s.n64Host RequestCommand.ControllerState 10 = some (false, hw1) →
      updatePadStep s = some { s with n64Host := sleep_ms (PioProgram.reset hw1) 1000 } ∧
      (sleep_ms (PioProgram.reset hw1) 1000).log
        = s.n64Host.log ++ [Event.reset, Event.sleep 1000] ∧
      (sleep_ms (PioProgram.reset hw1) 1000).rxEmpty = s.n64Host.rxEmpty ∧
      (sleep_ms (PioProgram.reset hw1) 1000).rxWords = s.n64Host.rxWords) ∧
    (∀ hw1 msg hw2,
      PioProgram.writeByte s.n64Host RequestCommand.ControllerState 10 = some (true, hw1) →
      PioProgram.read hw1 s.pollMsg 10 = some (false, msg, hw2) →
      updatePadStep s =
        some { n64Host := sleep_ms (PioProgram.reset hw2) 1000, pad1 := s.pad1,
               pollMsg := s.pollMsg } ∧
      (sleep_ms (PioProgram.reset hw2) 1000).log
        = s.n64Host.log ++ [Event.put 0x01000000, Event.reset, Event.sleep 1000]) ∧
    (∀ hw1 hw2,
      PioProgram.writeByte s.n64Host RequestCommand.ControllerState 10 = some (false, hw1) →
      PioProgram.writeByte (sleep_ms (PioProgram.reset hw1) 1000)
        RequestCommand.ControllerState 10 = some (false, hw2) →
      updatePad 2 s = some { s with n64Host := sleep_ms (PioProgram.reset hw2) 1000 } ∧
      (sleep_ms (PioProgram.reset hw2) 1000).log
        = s.n64Host.log ++ [Event.reset, Event.sleep 1000, Event.reset, Event.sleep 1000] ∧
      (∀ hw3 msg hw4,
        PioProgram.writeByte (sleep_ms (PioProgram.reset hw2) 1000)
          RequestCommand.ControllerState 10 = some (true, hw3) →
        PioProgram.read hw3 s.pollMsg 10 = some (true, msg, hw4) →
        updatePad 3 s =
          some { n64Host := sleep_ms hw4 16, pad1 := s.pad1.setFromPollValue msg,
                 pollMsg := msg } ∧
        (sleep_ms hw4 16).log
          = s.n64Host.log ++ [Event.reset, Event.sleep 1000, Event.reset, Event.sleep 1000,
              Event.put 0x01000000, Event.get msg, Event.sleep 16])) ∧
    (∀ n s1, updatePadStep s = some s1 → updatePad (n + 1) s = updatePad n s1) := by
  refine ⟨fun hw1 h => updatePadStep_send_timeout s hw1 h, ?_, ?_, ?_⟩
  · intro hw1 msg hw2 h hr
    obtain ⟨e1, e2, -⟩ := updatePadStep_receive_timeout s hw1 msg hw2 h hr
    exact ⟨e1, e2⟩
  · intro hw1 hw2 h1 h2
    obtain ⟨a1, a2, -, -⟩ := updatePadStep_send_timeout s hw1 h1
    obtain ⟨b1, b2, -, -⟩ := updatePadStep_send_timeout
      { s with n64Host := sleep_ms (PioProgram.reset hw1) 1000 } hw2 h2
    have hlog : (sleep_ms (PioProgram.reset hw2) 1000).log
        = s.n64Host.log ++ [Event.reset, Event.sleep 1000, Event.reset, Event.sleep 1000] := by
      rw [b2]
      show (sleep_ms (PioProgram.reset hw1) 1000).log ++ _ = _
      rw [a2]
      simp
    have h2step : updatePad 2 s
        = some { s with n64Host := sleep_ms (PioProgram.reset hw2) 1000 } := by
      simp only [updatePad, a1, b1]
    refine ⟨h2step, hlog, ?_⟩
    intro hw3 msg hw4 h3 hr
    obtain ⟨c1, c2⟩ := updatePadStep_publish
      { s with n64Host := sleep_ms (PioProgram.reset hw2) 1000 } hw3 msg hw4 h3 hr
    refine ⟨?_, ?_⟩
    · simp only [updatePad, a1, b1, c1]
    · rw [c2]
      show (sleep_ms (PioProgram.reset hw2) 1000).log ++ _ = _
      rw [hlog]
      simp
  · intro n s1 h
    simp only [updatePad, h]

theorem poller_recovery_witness :
    updatePad 3
        ⟨⟨[0, 11, 1011, 1022, 2022, 2023], [true, true, false], [false], [0x80017F80], []⟩,
         pad1, 0⟩ =
      some ⟨sleep_ms ⟨[], [], [], [],
              [Event.reset, Event.sleep 1000, Event.reset, Event.sleep 1000,
               Event.put 0x01000000, Event.get 0x80017F80]⟩ 16,
            pad1.setFromPollValue 0x80017F80, 0x80017F80⟩ :=
  (((poller_recovery
      ⟨⟨[0, 11, 1011, 1022, 2022, 2023], [true, true, false], [false], [0x80017F80], []⟩,
       pad1, 0⟩).2.2.1
      ⟨[1011, 1022, 2022, 2023], [true, false], [false], [0x80017F80], []⟩
      ⟨[2022, 2023], [false], [false], [0x80017F80], [Event.reset, Event.sleep 1000]⟩
      rfl rfl).2.2
      ⟨[2023], [], [false], [0x80017F80],
        [Event.reset, Event.sleep 1000, Event.reset, Event.sleep 1000,
         Event.put 0x01000000]⟩
      0x80017F80
      ⟨[], [], [], [],
        [Event.reset, Event.sleep 1000, Event.reset, Event.sleep 1000,
         Event.put 0x01000000, Event.get 0x80017F80]⟩
      rfl rfl).1

end UltraPad
